import Mathlib

/-!
Verification development for the baseball stats ingestion-and-aggregation
subsystem (xml_parser.parse_game_xml, routes aggregation helpers, and the
PitchingStats.era model method).

Modelling conventions:
* XML elements are modelled by structures holding their attribute maps
  (association lists `String × String`, first binding wins, as lxml
  attribute dictionaries have unique keys) and their relevant children.
* The SQLAlchemy session is modelled by a `DB` value threaded through the
  import; queries read this session state (autoflush semantics: flushed
  but uncommitted rows are visible to queries in the same session).
  `db.session.commit` is modelled by the `didCommit` flag of the result:
  the persisted state after a call is the session state if the call
  committed, and the original state otherwise.
* Python ints are modelled by `Int`.  Python floats arising from parsing
  fixed-point decimal attribute text (the only floats in this subsystem,
  the innings-pitched column) are modelled exactly by a mantissa/scale
  pair `DecVal`, value = mant / 10 ^ scale.  Real-number operations on
  them (`int(x)` truncation, `round`, `"%.nf"` formatting of quotients)
  are modelled by exact integer arithmetic with round-half-even, which is
  Python's rounding mode.
* Python `str.upper` is modelled on ASCII letters, and `int(...)`/
  `float(...)` literal parsing is modelled for plain `[sign] digits
  [. digits]` numerals, the forms the scoring files carry.
-/

namespace Baseball

/-! ### Attribute maps and coercion helpers (xml_parser.py `_int`, `_float`, `_bool_yn`) -/

abbrev AttrMap := List (String × String)

/-- `element.get(key)`: first binding for `key`, if any. -/
def attrGet (m : AttrMap) (k : String) : Option String :=
  (m.find? (fun p => p.1 == k)).map (fun p => p.2)

/-- `element.get(key, default)`. -/
def attrGetD (m : AttrMap) (k d : String) : String :=
  (attrGet m k).getD d

/-- Digits of a numeral, most significant first; `none` if empty or non-digit. -/
def digitsToNat : List Char → Option Nat → Option Nat
  | [], acc => acc
  | c :: cs, acc =>
    if c.isDigit then
      digitsToNat cs (some ((acc.getD 0) * 10 + (c.toNat - 48)))
    else none

/-- Python `int(s)` on a plain `[sign] digits` numeral. -/
def pyParseInt (s : String) : Option Int :=
  match s.data with
  | '-' :: rest => (digitsToNat rest none).map (fun n => -(n : Int))
  | '+' :: rest => (digitsToNat rest none).map (fun n => (n : Int))
  | l => (digitsToNat l none).map (fun n => (n : Int))

/-- xml_parser `_int`: safe int coercion, default on absent/empty/non-numeric. -/
def pyInt (v : Option String) (d : Int) : Int :=
  match v with
  | none => d
  | some s => if s = "" then d else (pyParseInt s).getD d

/-- Exact decimal value, mant / 10 ^ scale: the model of a Python float
parsed from fixed-point attribute text. -/
structure DecVal where
  mant : Int
  scale : Nat
deriving DecidableEq, Repr

/-- Fixed-point numeral body `digits [. digits]` to an exact decimal. -/
def parseDecBody (l : List Char) : Option DecVal :=
  let intPart := l.takeWhile (fun c => c ≠ '.')
  match l.dropWhile (fun c => c ≠ '.') with
  | [] => (digitsToNat intPart none).map (fun n => ⟨(n : Int), 0⟩)
  | _ :: fracPart =>
    match digitsToNat intPart none, digitsToNat fracPart none with
    | some i, some f => some ⟨(i : Int) * (10 : Int) ^ fracPart.length + (f : Int), fracPart.length⟩
    | _, _ => none

/-- Python `float(s)` on a plain `[sign] digits [. digits]` numeral. -/
def pyParseDec (s : String) : Option DecVal :=
  match s.data with
  | '-' :: rest => (parseDecBody rest).map (fun v => ⟨-v.mant, v.scale⟩)
  | '+' :: rest => parseDecBody rest
  | l => parseDecBody l

/-- xml_parser `_float`: safe float coercion with default 0.0. -/
def pyFloat (v : Option String) : DecVal :=
  match v with
  | none => ⟨0, 0⟩
  | some s => if s = "" then ⟨0, 0⟩ else (pyParseDec s).getD ⟨0, 0⟩

/-- ASCII model of Python `str.upper`. -/
def pyUpper (s : String) : String :=
  String.mk (s.data.map Char.toUpper)

/-- xml_parser `_bool_yn`: `val and val.upper() == "Y"` read in boolean context. -/
def pyBoolYN (v : Option String) : Bool :=
  match v with
  | none => false
  | some s => pyUpper s == "Y"

/-- Python truthiness of `element.get(key, "")`, the presence-boolean used for
the win/loss/save flags (`bool(win_str)`). -/
def pyTruthy (v : Option String) : Bool :=
  !((v.getD "") == "")

/-! ### Exact real arithmetic helpers

`roundHalfEvenDiv a b` is Python `round(a / b)` for `b > 0`, computed
exactly; `fmtDivFixed a b n` is Python `f"{a / b:.nf}"` computed exactly
(round half to even, Python's mode). -/

def roundHalfEvenDiv (a b : Int) : Int :=
  let f := a.fdiv b
  let r2 := 2 * a.fmod b
  if r2 < b then f
  else if b < r2 then f + 1
  else if f % 2 = 0 then f else f + 1

/-- Left-pad a numeral string with zeros to width `n`. -/
def zeroPad (n : Nat) (s : String) : String :=
  String.mk (List.replicate (n - s.length) '0') ++ s

/-- Format the exact quotient `a / b` (for `b > 0`) with `n` decimal places,
rounding half to even as Python float formatting does. -/
def fmtDivFixed (a b : Int) (n : Nat) : String :=
  let scaled := roundHalfEvenDiv (a * (10 : Int) ^ n) b
  let abs := scaled.natAbs
  let ipart := abs / 10 ^ n
  let fpart := abs % 10 ^ n
  (if scaled < 0 then "-" else "") ++ toString ipart ++ "." ++ zeroPad n (toString fpart)

/-- Python `int(v)` truncation toward zero of a decimal value. -/
def DecVal.trunc (v : DecVal) : Int :=
  v.mant.tdiv ((10 : Int) ^ v.scale)

/-- Python `round((v - int(v)) * 10)`: the recovered first decimal digit. -/
def DecVal.fracDigit (v : DecVal) : Int :=
  roundHalfEvenDiv ((v.mant - v.trunc * (10 : Int) ^ v.scale) * 10) ((10 : Int) ^ v.scale)

/-- Thirds-of-an-inning value of one stored innings-pitched number:
`int(ip) * 3 + round((ip - int(ip)) * 10)` (routes `_aggregate_pitching`
and models `PitchingStats.era`). -/
def DecVal.thirds (v : DecVal) : Int :=
  v.trunc * 3 + v.fracDigit

/-- `len(set(xs))`. -/
def pyLenSet (xs : List Nat) : Nat :=
  (xs.foldl (fun acc a => if a ∈ acc then acc else acc ++ [a]) []).length

/-! ### Stored rows (app/models.py)

Only the columns the import subsystem and the claims touch are modelled.
The Team scope column is named `league_id` as in the parser's queries
(models.py names the column `season_id`; the spec calls it the
league-or-season scope). -/

structure Team where
  id : Nat
  code : String
  team_id : String
  name : String
  league_id : Nat

structure Player where
  id : Nat
  external_id : String
  name : String
  short_name : String
  uniform_number : String
  bats : String
  throws : String
  player_class : String
  team_id : Nat

structure Game where
  id : Nat
  date : String
  location : String
  stadium : String
  start_time : String
  duration : String
  attendance : Int
  scheduled_innings : Int
  weather : String
  is_league_game : Bool
  is_complete : Bool
  used_dh : String
  visitor_team_id : Nat
  home_team_id : Nat
  visitor_runs : Int
  visitor_hits : Int
  visitor_errors : Int
  visitor_lob : Int
  home_runs : Int
  home_hits : Int
  home_errors : Int
  home_lob : Int

structure InningScore where
  id : Nat
  game_id : Nat
  inning : Int
  visitor_score : String
  home_score : String

structure BattingStats where
  id : Nat
  game_id : Nat
  player_id : Nat
  team_id : Nat
  batting_order : Int
  position : String
  is_starter : Bool
  is_sub : Bool
  ab : Int
  r : Int
  h : Int
  rbi : Int
  doubles : Int
  triples : Int
  hr : Int
  bb : Int
  so : Int
  sb : Int
  cs : Int
  hbp : Int
  sh : Int
  sf : Int
  gdp : Int
  ibb : Int
  ground : Int
  fly : Int
  kl : Int

structure PitchingStats where
  id : Nat
  game_id : Nat
  player_id : Nat
  team_id : Nat
  appear : Int
  gs : Int
  ip : DecVal
  ab : Int
  h : Int
  r : Int
  er : Int
  bb : Int
  so : Int
  hr : Int
  doubles : Int
  triples : Int
  hbp : Int
  bf : Int
  wp : Int
  bk : Int
  ibb : Int
  fly : Int
  ground : Int
  kl : Int
  pitches : Int
  strikes : Int
  cg : Int
  sho : Int
  win : Bool
  loss : Bool
  save : Bool

structure FieldingStats where
  id : Nat
  game_id : Nat
  player_id : Nat
  team_id : Nat
  position : String
  po : Int
  a : Int
  e : Int
  pb : Int
  ci : Int
  sba : Int

structure Play where
  id : Nat
  game_id : Nat
  inning : Int
  half : String
  sequence : Int
  outs_before : Int
  batter_name : String
  pitcher_name : String
  pitch_sequence : String
  narrative : String

/-- The session-visible database state.  `nextId` models the id sequence
assigned at flush.  Row lists are in insertion order; `.first()` of an
unordered query is modelled as the first list element in that order. -/
structure DB where
  teams : List Team
  players : List Player
  games : List Game
  innings : List InningScore
  batting : List BattingStats
  pitching : List PitchingStats
  fielding : List FieldingStats
  plays : List Play
  nextId : Nat

/-! ### The XML document shape (the parts parse_game_xml reads) -/

structure VenueXml where
  attrs : AttrMap
  rules : Option AttrMap

structure LinescoreXml where
  attrs : AttrMap
  lineinns : List AttrMap

structure PlayerXml where
  attrs : AttrMap
  hitting : Option AttrMap
  fielding : Option AttrMap
  pitching : Option AttrMap

structure TeamXml where
  attrs : AttrMap
  linescore : Option LinescoreXml
  players : List PlayerXml

structure PlayXml where
  attrs : AttrMap
  narrative : Option AttrMap
  sub : Option AttrMap
  pitches : Option AttrMap

structure HalfXml where
  attrs : AttrMap
  plays : List PlayXml

structure InningXml where
  attrs : AttrMap
  battings : List HalfXml

structure GameXml where
  venue : Option VenueXml
  status : Option AttrMap
  teams : List TeamXml
  plays : Option (List InningXml)

/-! ### Queries (SQLAlchemy `.query.filter_by(...).first()`) -/

def findTeam (code : String) (leagueId : Nat) (ts : List Team) : Option Team :=
  ts.find? (fun t => t.code == code && t.league_id == leagueId)

def findPlayer (name uni : String) (teamId : Nat) (ps : List Player) : Option Player :=
  ps.find? (fun p => p.name == name && p.uniform_number == uni && p.team_id == teamId)

def findGame (date : String) (visId homeId : Nat) (start : String) (gs : List Game) : Option Game :=
  gs.find? (fun g =>
    g.date == date && g.visitor_team_id == visId && g.home_team_id == homeId &&
      g.start_time == start)

def findInning (gameId : Nat) (inn : Int) (is : List InningScore) : Option InningScore :=
  is.find? (fun r => r.game_id == gameId && r.inning == inn)

/-- Replace the first element satisfying `pred` by its image under `f`:
the model of mutating the single ORM object a `.first()` query returned. -/
def updFirst {α : Type} (pred : α → Bool) (f : α → α) : List α → List α
  | [] => []
  | x :: xs => if pred x then f x :: xs else x :: updFirst pred f xs

/-! ### Entity resolution (xml_parser.py lines 75-91 and 181-199) -/

/-- Team lookup-or-create: query by `(code, league_id)`; on miss create the
row with the block's external id and name and flush. -/
def teamLookupOrCreate (code extId name : String) (leagueId : Nat) (db : DB) : DB × Team :=
  match findTeam code leagueId db.teams with
  | some t => (db, t)
  | none =>
    let t : Team := ⟨db.nextId, code, extId, name, leagueId⟩
    ({ db with teams := db.teams ++ [t], nextId := db.nextId + 1 }, t)

/-- Player lookup-or-create from a player block's attributes: query by
`(name, uniform_number, team_id)`; on miss create and flush; on hit
backfill `external_id` only when the incoming one is non-empty and the
stored one is empty. -/
def playerLookupOrCreate (px : AttrMap) (teamId : Nat) (db : DB) : DB × Player :=
  let pname := attrGetD px "name" ""
  let uni := attrGetD px "uni" ""
  let extId := attrGetD px "playerId" ""
  match findPlayer pname uni teamId db.players with
  | some p =>
    if extId ≠ "" ∧ p.external_id = "" then
      ({ db with
          players := updFirst
            (fun q => q.name == pname && q.uniform_number == uni && q.team_id == teamId)
            (fun q => { q with external_id := extId }) db.players },
       { p with external_id := extId })
    else (db, p)
  | none =>
    let p : Player :=
      ⟨db.nextId, extId, pname, attrGetD px "shortname" pname, uni,
        attrGetD px "bats" "", attrGetD px "throws" "", attrGetD px "class" "", teamId⟩
    ({ db with players := db.players ++ [p], nextId := db.nextId + 1 }, p)

/-- State carried through the team-resolution loop: the session, the last
team classified to each side, and the `team_map` dict (key `vh`, Python
dict semantics: update in place, insert at the end). -/
structure RTState where
  db : DB
  visitor : Option Team
  home : Option Team
  teamMap : List (Option String × (Team × TeamXml))

def dictInsert (m : List (Option String × (Team × TeamXml))) (k : Option String)
    (v : Team × TeamXml) : List (Option String × (Team × TeamXml)) :=
  if m.any (fun p => p.1 == k) then m.map (fun p => if p.1 == k then (k, v) else p)
  else m ++ [(k, v)]

/-- One iteration of the team loop: resolve the block's team, record it in
`team_map`, and classify it as visitor when `vh == "V"`, home otherwise. -/
def resolveStep (leagueId : Nat) (st : RTState) (b : TeamXml) : RTState :=
  let vh := attrGet b.attrs "vh"
  let code := attrGetD b.attrs "code" ""
  let extId := attrGetD b.attrs "id" ""
  let name := attrGetD b.attrs "name" ""
  let r := teamLookupOrCreate code extId name leagueId st.db
  { db := r.1
    visitor := if vh == some "V" then some r.2 else st.visitor
    home := if vh == some "V" then st.home else some r.2
    teamMap := dictInsert st.teamMap vh (r.2, b) }

def resolveTeams (leagueId : Nat) (bs : List TeamXml) (st : RTState) : RTState :=
  match bs with
  | [] => st
  | b :: rest => resolveTeams leagueId rest (resolveStep leagueId st b)

/-! ### The game writer (xml_parser.py lines 106-334) -/

def mkBattingStats (rowId gameId playerId teamId : Nat) (spot : Int) (pos : String)
    (isStarter isSub : Bool) (hm : AttrMap) : BattingStats :=
  ⟨rowId, gameId, playerId, teamId, spot, pos, isStarter, isSub,
    pyInt (attrGet hm "ab") 0, pyInt (attrGet hm "r") 0, pyInt (attrGet hm "h") 0,
    pyInt (attrGet hm "rbi") 0, pyInt (attrGet hm "double") 0, pyInt (attrGet hm "triple") 0,
    pyInt (attrGet hm "hr") 0, pyInt (attrGet hm "bb") 0, pyInt (attrGet hm "so") 0,
    pyInt (attrGet hm "sb") 0, pyInt (attrGet hm "cs") 0, pyInt (attrGet hm "hbp") 0,
    pyInt (attrGet hm "sh") 0, pyInt (attrGet hm "sf") 0, pyInt (attrGet hm "gdp") 0,
    pyInt (attrGet hm "ibb") 0, pyInt (attrGet hm "ground") 0, pyInt (attrGet hm "fly") 0,
    pyInt (attrGet hm "kl") 0⟩

def mkFieldingStats (rowId gameId playerId teamId : Nat) (pos : String)
    (fm : AttrMap) : FieldingStats :=
  ⟨rowId, gameId, playerId, teamId, pos,
    pyInt (attrGet fm "po") 0, pyInt (attrGet fm "a") 0, pyInt (attrGet fm "e") 0,
    pyInt (attrGet fm "pb") 0, pyInt (attrGet fm "ci") 0, pyInt (attrGet fm "sba") 0⟩

def mkPitchingStats (rowId gameId playerId teamId : Nat) (pm : AttrMap) : PitchingStats :=
  ⟨rowId, gameId, playerId, teamId,
    pyInt (attrGet pm "appear") 0, pyInt (attrGet pm "gs") 0,
    pyFloat (attrGet pm "ip"),
    pyInt (attrGet pm "ab") 0, pyInt (attrGet pm "h") 0, pyInt (attrGet pm "r") 0,
    pyInt (attrGet pm "er") 0, pyInt (attrGet pm "bb") 0, pyInt (attrGet pm "so") 0,
    pyInt (attrGet pm "hr") 0, pyInt (attrGet pm "double") 0, pyInt (attrGet pm "triple") 0,
    pyInt (attrGet pm "hbp") 0, pyInt (attrGet pm "bf") 0, pyInt (attrGet pm "wp") 0,
    pyInt (attrGet pm "bk") 0, pyInt (attrGet pm "ibb") 0, pyInt (attrGet pm "fly") 0,
    pyInt (attrGet pm "ground") 0, pyInt (attrGet pm "kl") 0,
    pyInt (attrGet pm "pitches") 0, pyInt (attrGet pm "strikes") 0,
    pyInt (attrGet pm "cg") 0, pyInt (attrGet pm "sho") 0,
    pyTruthy (attrGet pm "win"), pyTruthy (attrGet pm "loss"), pyTruthy (attrGet pm "save")⟩

/-- One player block: resolve the player, then, unless its `gp` counter is
zero, add the batting/fielding/pitching lines present in the block. -/
def processPlayer (gameId teamId : Nat) (db : DB) (px : PlayerXml) : DB :=
  let gp := pyInt (attrGet px.attrs "gp") 0
  let gs := pyInt (attrGet px.attrs "gs") 0
  let spot := pyInt (attrGet px.attrs "spot") 0
  let pos := attrGetD px.attrs "pos" ""
  let isSub := pyBoolYN (attrGet px.attrs "sub") || (pyInt (attrGet px.attrs "sub") 0 == 1)
  let r := playerLookupOrCreate px.attrs teamId db
  let db1 := r.1
  let player := r.2
  if gp = 0 then db1 else
  let db2 :=
    match px.hitting with
    | some hm =>
      { db1 with
        batting := db1.batting ++
          [mkBattingStats db1.nextId gameId player.id teamId spot pos (gs == 1) isSub hm]
        nextId := db1.nextId + 1 }
    | none => db1
  let db3 :=
    match px.fielding with
    | some fm =>
      { db2 with
        fielding := db2.fielding ++ [mkFieldingStats db2.nextId gameId player.id teamId pos fm]
        nextId := db2.nextId + 1 }
    | none => db2
  match px.pitching with
  | some pm =>
    { db3 with
      pitching := db3.pitching ++ [mkPitchingStats db3.nextId gameId player.id teamId pm]
      nextId := db3.nextId + 1 }
  | none => db3

/-- One `<lineinn>` entry: update the side score of an existing
`(game, inning)` row, or create the row with the other side zeroed. -/
def processLineinn (vh : Option String) (gameId : Nat) (db : DB) (li : AttrMap) : DB :=
  let innNum := pyInt (attrGet li "inn") 0
  let score := attrGetD li "score" "0"
  match findInning gameId innNum db.innings with
  | some _ =>
    { db with
      innings := updFirst (fun r => r.game_id == gameId && r.inning == innNum)
        (fun r => if vh == some "V" then { r with visitor_score := score }
                  else { r with home_score := score }) db.innings }
  | none =>
    { db with
      innings := db.innings ++
        [⟨db.nextId, gameId, innNum,
          if vh == some "V" then score else "0",
          if vh == some "H" then score else "0"⟩]
      nextId := db.nextId + 1 }

/-- The linescore block of one team: write the team-level totals onto the
game row and process the per-inning entries. -/
def applyLinescore (vh : Option String) (ls : LinescoreXml) (g : Game) (db : DB) :
    Game × DB :=
  let runs := pyInt (attrGet ls.attrs "runs") 0
  let hits := pyInt (attrGet ls.attrs "hits") 0
  let errs := pyInt (attrGet ls.attrs "errs") 0
  let lob := pyInt (attrGet ls.attrs "lob") 0
  let g1 :=
    if vh == some "V" then
      { g with visitor_runs := runs, visitor_hits := hits, visitor_errors := errs,
               visitor_lob := lob }
    else
      { g with home_runs := runs, home_hits := hits, home_errors := errs, home_lob := lob }
  (g1, ls.lineinns.foldl (processLineinn vh g.id) db)

/-- One `team_map` entry: linescore (if present), then the roster. -/
def processTeamEntry (acc : Game × DB) (entry : Option String × (Team × TeamXml)) :
    Game × DB :=
  let vh := entry.1
  let team := entry.2.1
  let tx := entry.2.2
  let acc1 :=
    match tx.linescore with
    | some ls => applyLinescore vh ls acc.1 acc.2
    | none => acc
  (acc1.1, tx.players.foldl (processPlayer acc.1.id team.id) acc1.2)

/-- One `<play>`: synthesize a substitution narrative when needed and drop
plays with neither narrative nor batter. -/
def processPlay (gameId : Nat) (inn : Int) (half : String) (db : DB) (p : PlayXml) : DB :=
  let seq := pyInt (attrGet p.attrs "seq") 0
  let outs := pyInt (attrGet p.attrs "outs") 0
  let batter := attrGetD p.attrs "batter" ""
  let pitcher := attrGetD p.attrs "pitcher" ""
  let narr0 := match p.narrative with | some a => attrGetD a "text" "" | none => ""
  let narr :=
    match p.sub with
    | some sa =>
      if narr0 = "" then
        attrGetD sa "who" "" ++ " to " ++ attrGetD sa "pos" "" ++ " for " ++
          attrGetD sa "for" "" ++ "."
      else narr0
    | none => narr0
  let pseq := match p.pitches with | some a => attrGetD a "text" "" | none => ""
  if narr ≠ "" ∨ batter ≠ "" then
    { db with
      plays := db.plays ++ [⟨db.nextId, gameId, inn, half, seq, outs, batter, pitcher, pseq, narr⟩]
      nextId := db.nextId + 1 }
  else db

def processInningPlays (gameId : Nat) (db : DB) (ix : InningXml) : DB :=
  let innNum := pyInt (attrGet ix.attrs "number") 0
  ix.battings.foldl
    (fun d bx =>
      bx.plays.foldl
        (processPlay gameId innNum
          (if attrGet bx.attrs "vh" == some "V" then "top" else "bottom")) d)
    db

def processPlaysSection (gameId : Nat) (ps : Option (List InningXml)) (db : DB) : DB :=
  match ps with
  | none => db
  | some inns => inns.foldl (processInningPlays gameId) db

/-! ### parse_game_xml (xml_parser.py lines 32-337) -/

/-- Result of one import call.  `session` is the session state when the
call returns; `didCommit` records whether `db.session.commit()` ran
(it is the last statement of the new-game path and runs nowhere else). -/
structure ImportResult where
  session : DB
  didCommit : Bool
  game : Game
  isNew : Bool

/-- The new-game path (xml_parser.py lines 106-337): create the game row,
write line scores, rosters and stat lines, then plays, then commit.  The
game row is flushed at creation — it takes the next id, before its
children — and is mutated in place by the line-score totals; since no
query reads the game table between creation and commit, the model
carries the row as `w.1` and records its final value in the table at the
end, which is observationally the same session state. -/
def newGameResult (x : GameXml) (rt : RTState) (g0 : Game) : ImportResult :=
  let db1 : DB := { rt.db with nextId := rt.db.nextId + 1 }
  let w := rt.teamMap.foldl processTeamEntry (g0, db1)
  let db2 := processPlaysSection w.1.id x.plays w.2
  ⟨{ db2 with games := db2.games ++ [w.1] }, true, w.1, true⟩

/-- parse_game_xml.  Raising `ValueError` is modelled by `Except.error`
with the source's message. -/
def parse_game_xml (x : GameXml) (leagueId : Nat) (db0 : DB) : Except String ImportResult :=
  match x.venue with
  | none => .error "No <venue> element found in XML"
  | some ve =>
    let game_date := attrGetD ve.attrs "date" ""
    let location := attrGetD ve.attrs "location" ""
    let stadium := attrGetD ve.attrs "stadium" ""
    let start_time := attrGetD ve.attrs "start" ""
    let duration := attrGetD ve.attrs "duration" ""
    let attendance := pyInt (attrGet ve.attrs "attend") 0
    let scheduled_innings := pyInt (attrGet ve.attrs "schedinn") 7
    let weather := attrGetD ve.attrs "weather" ""
    let is_league := pyBoolYN (attrGet ve.attrs "leaguegame")
    let used_dh := match ve.rules with | some ra => attrGetD ra "usedh" "N" | none => "N"
    let is_complete := match x.status with | some sa => pyBoolYN (attrGet sa "complete") | none => false
    let rt := resolveTeams leagueId x.teams ⟨db0, none, none, []⟩
    match rt.visitor, rt.home with
    | some vt, some ht =>
      match findGame game_date vt.id ht.id start_time rt.db.games with
      | some g => .ok ⟨rt.db, false, g, false⟩
      | none =>
        .ok (newGameResult x rt
          ⟨rt.db.nextId, game_date, location, stadium, start_time, duration, attendance,
            scheduled_innings, weather, is_league, is_complete, used_dh, vt.id, ht.id,
            0, 0, 0, 0, 0, 0, 0, 0⟩)
    | _, _ => .error "Could not find both visitor and home teams in XML"

/-- The state the call leaves persisted: the session state if it
committed, the pre-call state otherwise. -/
def persistedAfter (db0 : DB) (r : ImportResult) : DB :=
  if r.didCommit then r.session else db0

/-- Persisted state after one import attempt (errors roll back). -/
def importPersisted (x : GameXml) (leagueId : Nat) (db0 : DB) : DB :=
  match parse_game_xml x leagueId db0 with
  | .error _ => db0
  | .ok r => persistedAfter db0 r

/-! ### Statistics aggregation (routes.py `_aggregate_batting`, `_aggregate_pitching`)

Rate statistics are strings formatted from exact quotients; the source
formats Python floats, modelled here by exact round-half-even
formatting of the same quotients. -/

/-- `singles = h - doubles - triples - hr` (routes.py line 46). -/
def battingSingles (h doubles triples hr : Int) : Int :=
  h - doubles - triples - hr

/-- `tb = singles + 2*doubles + 3*triples + 4*hr` (routes.py line 47). -/
def battingTotalBases (h doubles triples hr : Int) : Int :=
  battingSingles h doubles triples hr + 2 * doubles + 3 * triples + 4 * hr

structure BattingTotals where
  gp : Nat
  ab : Int
  r : Int
  h : Int
  rbi : Int
  doubles : Int
  triples : Int
  hr : Int
  bb : Int
  so : Int
  sb : Int
  cs : Int
  hbp : Int
  sh : Int
  sf : Int
  gdp : Int
  kl : Int
  avg : String
  obp : String
  slg : String
  ops : String

/-- routes `_aggregate_batting`. -/
def aggregate_batting (stats : List BattingStats) : Option BattingTotals :=
  if stats.isEmpty then none else
  let ab := (stats.map (fun s => s.ab)).sum
  let h := (stats.map (fun s => s.h)).sum
  let bb := (stats.map (fun s => s.bb)).sum
  let hbp := (stats.map (fun s => s.hbp)).sum
  let sf := (stats.map (fun s => s.sf)).sum
  let doubles := (stats.map (fun s => s.doubles)).sum
  let triples := (stats.map (fun s => s.triples)).sum
  let hr := (stats.map (fun s => s.hr)).sum
  let tb := battingTotalBases h doubles triples hr
  let denom := ab + bb + hbp + sf
  some
    { gp := pyLenSet (stats.map (fun s => s.game_id))
      ab := ab
      r := (stats.map (fun s => s.r)).sum
      h := h
      rbi := (stats.map (fun s => s.rbi)).sum
      doubles := doubles
      triples := triples
      hr := hr
      bb := bb
      so := (stats.map (fun s => s.so)).sum
      sb := (stats.map (fun s => s.sb)).sum
      cs := (stats.map (fun s => s.cs)).sum
      hbp := hbp
      sh := (stats.map (fun s => s.sh)).sum
      sf := sf
      gdp := (stats.map (fun s => s.gdp)).sum
      kl := (stats.map (fun s => s.kl)).sum
      avg := if 0 < ab then fmtDivFixed h ab 3 else ".000"
      obp := if 0 < denom then fmtDivFixed (h + bb + hbp) denom 3 else ".000"
      slg := if 0 < ab then fmtDivFixed tb ab 3 else ".000"
      ops :=
        fmtDivFixed
          ((if 0 < denom then h + bb + hbp else 0) * (if 0 < ab then ab else 1) +
            (if 0 < ab then tb else 0) * (if 0 < denom then denom else 1))
          ((if 0 < denom then denom else 1) * (if 0 < ab then ab else 1)) 3 }

/-- Total innings pitched of a stat-line collection, in thirds. -/
def totalThirds (stats : List PitchingStats) : Int :=
  (stats.map (fun s => s.ip.thirds)).sum

structure PitchingTotals where
  gp : Nat
  gs : Int
  ip : String
  h : Int
  r : Int
  er : Int
  bb : Int
  so : Int
  hr : Int
  hbp : Int
  bf : Int
  wp : Int
  bk : Int
  pitches : Int
  strikes : Int
  cg : Int
  sho : Int
  w : Nat
  l : Nat
  sv : Nat
  era : String
  whip : String

/-- routes `_aggregate_pitching`: innings summed in thirds; the aggregate
ERA uses the hardcoded 7-inning regulation length, and both ERA and WHIP
fall back to "0.00" whenever `total_thirds` is not positive.
WHIP's quotient `(bb + h) / (total_thirds / 3)` equals
`3 * (bb + h) / total_thirds` exactly. -/
def aggregate_pitching (stats : List PitchingStats) : Option PitchingTotals :=
  if stats.isEmpty then none else
  let tt := totalThirds stats
  let ipFull := tt.fdiv 3
  let ipFrac := tt.fmod 3
  let h := (stats.map (fun s => s.h)).sum
  let er := (stats.map (fun s => s.er)).sum
  let bb := (stats.map (fun s => s.bb)).sum
  some
    { gp := pyLenSet (stats.map (fun s => s.game_id))
      gs := (stats.map (fun s => s.gs)).sum
      ip := if ipFrac ≠ 0 then toString ipFull ++ "." ++ toString ipFrac else toString ipFull
      h := h
      r := (stats.map (fun s => s.r)).sum
      er := er
      bb := bb
      so := (stats.map (fun s => s.so)).sum
      hr := (stats.map (fun s => s.hr)).sum
      hbp := (stats.map (fun s => s.hbp)).sum
      bf := (stats.map (fun s => s.bf)).sum
      wp := (stats.map (fun s => s.wp)).sum
      bk := (stats.map (fun s => s.bk)).sum
      pitches := (stats.map (fun s => s.pitches)).sum
      strikes := (stats.map (fun s => s.strikes)).sum
      cg := (stats.map (fun s => s.cg)).sum
      sho := (stats.map (fun s => s.sho)).sum
      w := (stats.filter (fun s => s.win)).length
      l := (stats.filter (fun s => s.loss)).length
      sv := (stats.filter (fun s => s.save)).length
      era := if 0 < tt then fmtDivFixed (er * 7 * 3) tt 2 else "0.00"
      whip := if 0 < tt then fmtDivFixed (3 * (bb + h)) tt 2 else "0.00" }

/-- Result of the single-line ERA method: a finite value or the
`float("inf")` sentinel. -/
inductive EraVal where
  | infinite
  | val (num den : Int)

/-- models `PitchingStats.era`: per-line ERA with the infinity sentinel
when no outs were recorded but earned runs exist.  A finite value is the
exact quotient `num / den`. -/
def PitchingStats.era (s : PitchingStats) : EraVal :=
  let tt := s.ip.thirds
  if tt = 0 then (if 0 < s.er then .infinite else .val 0 1)
  else .val (s.er * 7 * 3) tt

/-! ### Generic list lemmas -/

theorem foldl_rel {α β : Type} (R : β → β → Prop) (f : β → α → β)
    (hrefl : ∀ b, R b b)
    (htrans : ∀ {a b c : β}, R a b → R b c → R a c)
    (hstep : ∀ (b : β) (a : α), R b (f b a)) :
    ∀ (l : List α) (b : β), R b (l.foldl f b) := by
  intro l
  induction l with
  | nil => exact hrefl
  | cons a t ih => intro b; exact htrans (hstep b a) (ih (f b a))

theorem forall2_self {α : Type} (R : α → α → Prop) (hrefl : ∀ x, R x x) :
    ∀ l : List α, List.Forall₂ R l l := by
  intro l
  induction l with
  | nil => exact .nil
  | cons x xs ih => exact .cons (hrefl x) ih

theorem updFirst_forall2 {α : Type} (R : α → α → Prop) (pred : α → Bool) (f : α → α)
    (hrefl : ∀ x, R x x) :
    ∀ l : List α, (∀ p, l.find? pred = some p → R p (f p)) →
      List.Forall₂ R l (updFirst pred f l) := by
  intro l
  induction l with
  | nil => intro _; exact .nil
  | cons x xs ih =>
    intro h
    by_cases hx : pred x
    · rw [updFirst, if_pos hx]
      exact .cons (h x (List.find?_cons_of_pos _ hx)) (forall2_self R hrefl xs)
    · rw [updFirst, if_neg hx]
      exact .cons (hrefl x) (ih (fun p hp => h p (by rw [List.find?_cons_of_neg _ hx]; exact hp)))

theorem find?_updFirst {α : Type} (pred : α → Bool) (f : α → α)
    (hpred : ∀ x, pred (f x) = pred x) :
    ∀ l : List α, (updFirst pred f l).find? pred = (l.find? pred).map f := by
  intro l
  induction l with
  | nil => rfl
  | cons x xs ih =>
    by_cases hx : pred x
    · rw [updFirst, if_pos hx, List.find?_cons_of_pos _ hx,
        List.find?_cons_of_pos _ (by rw [hpred]; exact hx)]
      rfl
    · rw [updFirst, if_neg hx, List.find?_cons_of_neg _ hx, List.find?_cons_of_neg _ hx, ih]

/-! ### Frame lemmas for team resolution -/

/-- All session tables except the teams (and the id counter) are equal. -/
def DB.NonTeamEq (d d' : DB) : Prop :=
  d'.players = d.players ∧ d'.games = d.games ∧ d'.innings = d.innings ∧
  d'.batting = d.batting ∧ d'.pitching = d.pitching ∧ d'.fielding = d.fielding ∧
  d'.plays = d.plays

theorem nonTeamEq_refl {d : DB} : DB.NonTeamEq d d :=
  ⟨rfl, rfl, rfl, rfl, rfl, rfl, rfl⟩

theorem nonTeamEq_trans {a b c : DB} (h1 : DB.NonTeamEq a b) (h2 : DB.NonTeamEq b c) :
    DB.NonTeamEq a c := by
  obtain ⟨p1, g1, i1, b1, pi1, f1, pl1⟩ := h1
  obtain ⟨p2, g2, i2, b2, pi2, f2, pl2⟩ := h2
  exact ⟨p2.trans p1, g2.trans g1, i2.trans i1, b2.trans b1, pi2.trans pi1,
    f2.trans f1, pl2.trans pl1⟩

theorem teamLookupOrCreate_nonteam (code extId name : String) (lg : Nat) (db : DB) :
    DB.NonTeamEq db (teamLookupOrCreate code extId name lg db).1 := by
  unfold teamLookupOrCreate
  cases h : findTeam code lg db.teams <;> exact ⟨rfl, rfl, rfl, rfl, rfl, rfl, rfl⟩

theorem teamLookupOrCreate_teams (code extId name : String) (lg : Nat) (db : DB) :
    ∃ ext, (teamLookupOrCreate code extId name lg db).1.teams = db.teams ++ ext := by
  unfold teamLookupOrCreate
  cases h : findTeam code lg db.teams with
  | some t => exact ⟨[], by simp⟩
  | none => exact ⟨_, rfl⟩

theorem teamLookupOrCreate_find (code extId name : String) (lg : Nat) (db : DB) :
    findTeam code lg (teamLookupOrCreate code extId name lg db).1.teams =
      some (teamLookupOrCreate code extId name lg db).2 := by
  unfold teamLookupOrCreate
  cases h : findTeam code lg db.teams with
  | some t => simpa using h
  | none =>
    simp only [findTeam] at h ⊢
    rw [List.find?_append, h]
    simp

theorem resolveStep_nonteam (lg : Nat) (st : RTState) (b : TeamXml) :
    DB.NonTeamEq st.db (resolveStep lg st b).db :=
  teamLookupOrCreate_nonteam _ _ _ _ _

theorem resolveStep_teams (lg : Nat) (st : RTState) (b : TeamXml) :
    ∃ ext, (resolveStep lg st b).db.teams = st.db.teams ++ ext :=
  teamLookupOrCreate_teams _ _ _ _ _

theorem resolveTeams_nonteam (lg : Nat) :
    ∀ (bs : List TeamXml) (st : RTState), DB.NonTeamEq st.db (resolveTeams lg bs st).db := by
  intro bs
  induction bs with
  | nil => intro st; exact nonTeamEq_refl
  | cons b rest ih =>
    intro st
    exact nonTeamEq_trans (resolveStep_nonteam lg st b) (ih (resolveStep lg st b))

theorem resolveTeams_teams (lg : Nat) :
    ∀ (bs : List TeamXml) (st : RTState),
      ∃ ext, (resolveTeams lg bs st).db.teams = st.db.teams ++ ext := by
  intro bs
  induction bs with
  | nil => intro st; exact ⟨[], by simp [resolveTeams]⟩
  | cons b rest ih =>
    intro st
    obtain ⟨e1, h1⟩ := resolveStep_teams lg st b
    obtain ⟨e2, h2⟩ := ih (resolveStep lg st b)
    exact ⟨e1 ++ e2, by rw [resolveTeams, h2, h1, List.append_assoc]⟩

/-! ### Replay: resolving the same blocks against a state that already
contains the final team table is a pure lookup pass that changes nothing
and assigns the same teams. -/

theorem teamLookupOrCreate_hit (code extId name : String) (lg : Nat) (db : DB) (t : Team)
    (h : findTeam code lg db.teams = some t) :
    teamLookupOrCreate code extId name lg db = (db, t) := by
  unfold teamLookupOrCreate
  rw [h]

theorem teamLookupOrCreate_replay (code extId name : String) (lg : Nat) (db d' : DB)
    (ext : List Team)
    (hext : d'.teams = (teamLookupOrCreate code extId name lg db).1.teams ++ ext) :
    teamLookupOrCreate code extId name lg d' =
      (d', (teamLookupOrCreate code extId name lg db).2) := by
  refine teamLookupOrCreate_hit code extId name lg d' _ ?_
  have h1 := teamLookupOrCreate_find code extId name lg db
  rw [hext, findTeam, List.find?_append]
  rw [findTeam] at h1
  rw [h1]
  rfl

theorem resolveStep_replay (lg : Nat) (st : RTState) (b : TeamXml) (d' : DB) (ext : List Team)
    (hext : d'.teams = (resolveStep lg st b).db.teams ++ ext) :
    resolveStep lg { st with db := d' } b = { resolveStep lg st b with db := d' } := by
  have h := teamLookupOrCreate_replay (attrGetD b.attrs "code" "") (attrGetD b.attrs "id" "")
    (attrGetD b.attrs "name" "") lg st.db d' ext hext
  simp only [resolveStep]
  rw [h]

theorem resolveTeams_replay (lg : Nat) :
    ∀ (bs : List TeamXml) (st : RTState) (d' : DB) (ext : List Team),
      d'.teams = (resolveTeams lg bs st).db.teams ++ ext →
      resolveTeams lg bs { st with db := d' } = { resolveTeams lg bs st with db := d' } := by
  intro bs
  induction bs with
  | nil => intro st d' ext hext; rfl
  | cons b rest ih =>
    intro st d' ext hext
    rw [resolveTeams] at hext ⊢
    obtain ⟨e2, h2⟩ := resolveTeams_teams lg rest (resolveStep lg st b)
    have hstep : resolveStep lg { st with db := d' } b =
        { resolveStep lg st b with db := d' } := by
      refine resolveStep_replay lg st b d' (e2 ++ ext) ?_
      rw [hext, h2, List.append_assoc]
    rw [hstep]
    rw [resolveTeams]
    exact ih (resolveStep lg st b) d' ext hext

/-! ### Evolution of the player table: rows are only appended, or have an
empty external id backfilled with a non-empty one. -/

def extEvolves (p q : Player) : Prop :=
  q = p ∨ (p.external_id = "" ∧ q.external_id ≠ "" ∧ q = { p with external_id := q.external_id })

theorem extEvolves_refl (p : Player) : extEvolves p p := Or.inl rfl

theorem extEvolves_trans {p q r : Player} (h1 : extEvolves p q) (h2 : extEvolves q r) :
    extEvolves p r := by
  rcases h2 with h2 | ⟨hq, hr, hre⟩
  · rw [h2]; exact h1
  · rcases h1 with h1 | ⟨hp, hq2, hqe⟩
    · rw [h1] at hq hre
      exact Or.inr ⟨hq, hr, hre⟩
    · exact absurd hq hq2

/-- Once non-empty, the external id (and the whole row) is frozen. -/
theorem extEvolves_of_nonempty {p q : Player} (h : extEvolves p q)
    (hne : p.external_id ≠ "") : q = p := by
  rcases h with h | ⟨hp, _, _⟩
  · exact h
  · exact absurd hp hne

theorem forall2_trans {α : Type} {R : α → α → Prop}
    (htrans : ∀ a b c : α, R a b → R b c → R a c) :
    ∀ {l1 l2 l3 : List α}, List.Forall₂ R l1 l2 → List.Forall₂ R l2 l3 →
      List.Forall₂ R l1 l3 := by
  intro l1 l2 l3 h1
  induction h1 generalizing l3 with
  | nil => intro h2; cases h2; exact .nil
  | cons h t ih =>
    intro h2
    cases h2 with
    | cons h' t' => exact .cons (htrans _ _ _ h h') (ih t')

theorem forall2_append_split {α : Type} {R : α → α → Prop} :
    ∀ {l1 l2 m : List α}, List.Forall₂ R (l1 ++ l2) m →
      ∃ m1 m2, m = m1 ++ m2 ∧ List.Forall₂ R l1 m1 ∧ List.Forall₂ R l2 m2 := by
  intro l1
  induction l1 with
  | nil => intro l2 m h; exact ⟨[], m, rfl, .nil, h⟩
  | cons x xs ih =>
    intro l2 m h
    cases h with
    | cons hx ht =>
      obtain ⟨m1, m2, rfl, f1, f2⟩ := ih ht
      exact ⟨_ :: m1, m2, rfl, .cons hx f1, f2⟩

/-- The player table of `l'` is a pointwise `extEvolves` image of `l`
followed by newly created rows. -/
def playersEvolve (l l' : List Player) : Prop :=
  ∃ pfx nw, l' = pfx ++ nw ∧ List.Forall₂ extEvolves l pfx

theorem playersEvolve_refl (l : List Player) : playersEvolve l l :=
  ⟨l, [], by simp, forall2_self _ extEvolves_refl l⟩

theorem playersEvolve_trans {a b c : List Player} (h1 : playersEvolve a b)
    (h2 : playersEvolve b c) : playersEvolve a c := by
  obtain ⟨p1, n1, hb, f1⟩ := h1
  obtain ⟨p2, n2, hc, f2⟩ := h2
  subst hb
  obtain ⟨m1, m2, hm, f2a, f2b⟩ := forall2_append_split f2
  subst hm
  exact ⟨m1, m2 ++ n2, by rw [hc, List.append_assoc],
    forall2_trans (fun a b c (h : extEvolves a b) (h2 : extEvolves b c) =>
      extEvolves_trans h h2) f1 f2a⟩

theorem playerLookupOrCreate_evolve (px : AttrMap) (tid : Nat) (db : DB) :
    playersEvolve db.players (playerLookupOrCreate px tid db).1.players := by
  simp only [playerLookupOrCreate]
  split
  · next p hf =>
    split
    · next hc =>
      refine ⟨_, [], (List.append_nil _).symm, ?_⟩
      refine updFirst_forall2 extEvolves _ _ extEvolves_refl db.players ?_
      intro q hq
      rw [findPlayer] at hf
      rw [hf] at hq
      cases hq
      exact Or.inr ⟨hc.2, by simpa using hc.1, rfl⟩
    · next hc => exact playersEvolve_refl _
  · next hf => exact ⟨db.players, [_], rfl, forall2_self _ extEvolves_refl _⟩

/-! ### Frame relation preserved by the whole game writer -/

/-- Through the writer, the team and game tables are untouched and the
player table only evolves. -/
def WriterDBRel (d d' : DB) : Prop :=
  d'.teams = d.teams ∧ d'.games = d.games ∧ playersEvolve d.players d'.players

theorem writerDBRel_refl (d : DB) : WriterDBRel d d := ⟨rfl, rfl, playersEvolve_refl _⟩

theorem writerDBRel_trans {a b c : DB} (h1 : WriterDBRel a b) (h2 : WriterDBRel b c) :
    WriterDBRel a c :=
  ⟨h2.1.trans h1.1, h2.2.1.trans h1.2.1, playersEvolve_trans h1.2.2 h2.2.2⟩

theorem playerLookupOrCreate_writer (px : AttrMap) (tid : Nat) (db : DB) :
    WriterDBRel db (playerLookupOrCreate px tid db).1 := by
  refine ⟨?_, ?_, playerLookupOrCreate_evolve px tid db⟩ <;>
  · simp only [playerLookupOrCreate]
    split
    · split
      · rfl
      · rfl
    · rfl

theorem processPlayer_writer (gid tid : Nat) (db : DB) (px : PlayerXml) :
    WriterDBRel db (processPlayer gid tid db px) := by
  have h1 := playerLookupOrCreate_writer px.attrs tid db
  simp only [processPlayer]
  split
  · exact h1
  · cases px.hitting <;> cases px.fielding <;> cases px.pitching <;>
      exact writerDBRel_trans h1 ⟨rfl, rfl, playersEvolve_refl _⟩

theorem processLineinn_writer (vh : Option String) (gid : Nat) (db : DB) (li : AttrMap) :
    WriterDBRel db (processLineinn vh gid db li) := by
  simp only [processLineinn]
  split <;> exact ⟨rfl, rfl, playersEvolve_refl _⟩

theorem applyLinescore_writer (vh : Option String) (ls : LinescoreXml) (g : Game) (db : DB) :
    WriterDBRel db (applyLinescore vh ls g db).2 := by
  simp only [applyLinescore]
  exact foldl_rel WriterDBRel _ writerDBRel_refl
    (fun h1 h2 => writerDBRel_trans h1 h2)
    (fun d li => processLineinn_writer vh g.id d li) ls.lineinns db

theorem applyLinescore_fst (vh : Option String) (ls : LinescoreXml) (g : Game) (db : DB) :
    (applyLinescore vh ls g db).1.id = g.id ∧
    (applyLinescore vh ls g db).1.date = g.date ∧
    (applyLinescore vh ls g db).1.start_time = g.start_time ∧
    (applyLinescore vh ls g db).1.visitor_team_id = g.visitor_team_id ∧
    (applyLinescore vh ls g db).1.home_team_id = g.home_team_id := by
  by_cases h : (vh == some "V") = true <;> simp [applyLinescore, h]

/-- Relation preserved by each team-entry step of the writer: the game
row's identity-key fields are untouched, the team and game tables are
untouched, and the player table only evolves. -/
def WriterRel (a b : Game × DB) : Prop :=
  b.1.id = a.1.id ∧ b.1.date = a.1.date ∧ b.1.start_time = a.1.start_time ∧
  b.1.visitor_team_id = a.1.visitor_team_id ∧ b.1.home_team_id = a.1.home_team_id ∧
  WriterDBRel a.2 b.2

theorem writerRel_refl (a : Game × DB) : WriterRel a a :=
  ⟨rfl, rfl, rfl, rfl, rfl, writerDBRel_refl _⟩

theorem writerRel_trans {a b c : Game × DB} (h1 : WriterRel a b) (h2 : WriterRel b c) :
    WriterRel a c :=
  ⟨h2.1.trans h1.1, h2.2.1.trans h1.2.1, h2.2.2.1.trans h1.2.2.1,
    h2.2.2.2.1.trans h1.2.2.2.1, h2.2.2.2.2.1.trans h1.2.2.2.2.1,
    writerDBRel_trans h1.2.2.2.2.2 h2.2.2.2.2.2⟩

theorem players_foldl_writer (gid tid : Nat) (ps : List PlayerXml) (db : DB) :
    WriterDBRel db (ps.foldl (processPlayer gid tid) db) :=
  foldl_rel WriterDBRel _ writerDBRel_refl (fun h1 h2 => writerDBRel_trans h1 h2)
    (fun d px => processPlayer_writer gid tid d px) ps db

theorem processTeamEntry_writer (acc : Game × DB) (entry : Option String × (Team × TeamXml)) :
    WriterRel acc (processTeamEntry acc entry) := by
  simp only [processTeamEntry]
  cases hls : entry.2.2.linescore with
  | none =>
    exact ⟨rfl, rfl, rfl, rfl, rfl, players_foldl_writer _ _ _ _⟩
  | some ls =>
    obtain ⟨h1, h2, h3, h4, h5⟩ := applyLinescore_fst entry.1 ls acc.1 acc.2
    exact ⟨h1, h2, h3, h4, h5,
      writerDBRel_trans (applyLinescore_writer entry.1 ls acc.1 acc.2)
        (players_foldl_writer _ _ _ _)⟩

theorem teamMap_foldl_writer (m : List (Option String × (Team × TeamXml))) (acc : Game × DB) :
    WriterRel acc (m.foldl processTeamEntry acc) :=
  foldl_rel WriterRel _ writerRel_refl (fun h1 h2 => writerRel_trans h1 h2)
    (fun a e => processTeamEntry_writer a e) m acc

theorem writer_if_play (d : DB) (row : Play) (c : Prop) [Decidable c] :
    WriterDBRel d (if c then { d with plays := d.plays ++ [row], nextId := d.nextId + 1 } else d) := by
  by_cases h : c
  · rw [if_pos h]; exact ⟨rfl, rfl, playersEvolve_refl _⟩
  · rw [if_neg h]; exact writerDBRel_refl d

theorem processPlay_writer (gid : Nat) (inn : Int) (half : String) (db : DB) (p : PlayXml) :
    WriterDBRel db (processPlay gid inn half db p) := by
  simp only [processPlay]
  exact writer_if_play db _ _

theorem processInningPlays_writer (gid : Nat) (db : DB) (ix : InningXml) :
    WriterDBRel db (processInningPlays gid db ix) := by
  simp only [processInningPlays]
  refine foldl_rel WriterDBRel _ writerDBRel_refl
    (fun h1 h2 => writerDBRel_trans h1 h2) ?_ ix.battings db
  intro d bx
  exact foldl_rel WriterDBRel _ writerDBRel_refl
    (fun h1 h2 => writerDBRel_trans h1 h2)
    (fun d2 p => processPlay_writer _ _ _ d2 p) bx.plays d

theorem processPlaysSection_writer (gid : Nat) (ps : Option (List InningXml)) (db : DB) :
    WriterDBRel db (processPlaysSection gid ps db) := by
  cases ps with
  | none => exact writerDBRel_refl _
  | some inns =>
    exact foldl_rel WriterDBRel _ writerDBRel_refl
      (fun h1 h2 => writerDBRel_trans h1 h2)
      (fun d ix => processInningPlays_writer gid d ix) inns db

theorem newGameResult_props (x : GameXml) (rt : RTState) (g0 : Game) :
    (newGameResult x rt g0).didCommit = true ∧
    (newGameResult x rt g0).isNew = true ∧
    (newGameResult x rt g0).session.teams = rt.db.teams ∧
    (newGameResult x rt g0).session.games = rt.db.games ++ [(newGameResult x rt g0).game] ∧
    playersEvolve rt.db.players (newGameResult x rt g0).session.players ∧
    (newGameResult x rt g0).game.id = g0.id ∧
    (newGameResult x rt g0).game.date = g0.date ∧
    (newGameResult x rt g0).game.start_time = g0.start_time ∧
    (newGameResult x rt g0).game.visitor_team_id = g0.visitor_team_id ∧
    (newGameResult x rt g0).game.home_team_id = g0.home_team_id := by
  have hw := teamMap_foldl_writer rt.teamMap (g0, { rt.db with nextId := rt.db.nextId + 1 })
  have hp := processPlaysSection_writer
    (rt.teamMap.foldl processTeamEntry (g0, { rt.db with nextId := rt.db.nextId + 1 })).1.id
    x.plays
    (rt.teamMap.foldl processTeamEntry (g0, { rt.db with nextId := rt.db.nextId + 1 })).2
  simp only [newGameResult]
  refine ⟨?_, ?_, ?_, ?_, ?_, ?_, ?_, ?_, ?_, ?_⟩
  · trivial
  · trivial
  · exact hp.1.trans hw.2.2.2.2.2.1
  · rw [hp.2.1, hw.2.2.2.2.2.2.1]
  · exact playersEvolve_trans hw.2.2.2.2.2.2.2 hp.2.2
  · exact hw.1
  · exact hw.2.1
  · exact hw.2.2.1
  · exact hw.2.2.2.1
  · exact hw.2.2.2.2.1

/-! ### Characterization of the branches of parse_game_xml -/

theorem parse_dup (x : GameXml) (lg : Nat) (db : DB) (ve : VenueXml) (vt ht : Team) (g : Game)
    (hv : x.venue = some ve)
    (hrt : (resolveTeams lg x.teams ⟨db, none, none, []⟩).visitor = some vt)
    (hrh : (resolveTeams lg x.teams ⟨db, none, none, []⟩).home = some ht)
    (hfind : findGame (attrGetD ve.attrs "date" "") vt.id ht.id (attrGetD ve.attrs "start" "")
        (resolveTeams lg x.teams ⟨db, none, none, []⟩).db.games = some g) :
    parse_game_xml x lg db =
      .ok ⟨(resolveTeams lg x.teams ⟨db, none, none, []⟩).db, false, g, false⟩ := by
  simp only [parse_game_xml, hv, hrt, hrh, hfind]

theorem parse_new (x : GameXml) (lg : Nat) (db : DB) (ve : VenueXml) (vt ht : Team)
    (hv : x.venue = some ve)
    (hrt : (resolveTeams lg x.teams ⟨db, none, none, []⟩).visitor = some vt)
    (hrh : (resolveTeams lg x.teams ⟨db, none, none, []⟩).home = some ht)
    (hnone : findGame (attrGetD ve.attrs "date" "") vt.id ht.id (attrGetD ve.attrs "start" "")
        (resolveTeams lg x.teams ⟨db, none, none, []⟩).db.games = none) :
    parse_game_xml x lg db =
      .ok (newGameResult x (resolveTeams lg x.teams ⟨db, none, none, []⟩)
        ⟨(resolveTeams lg x.teams ⟨db, none, none, []⟩).db.nextId,
          attrGetD ve.attrs "date" "", attrGetD ve.attrs "location" "",
          attrGetD ve.attrs "stadium" "", attrGetD ve.attrs "start" "",
          attrGetD ve.attrs "duration" "", pyInt (attrGet ve.attrs "attend") 0,
          pyInt (attrGet ve.attrs "schedinn") 7, attrGetD ve.attrs "weather" "",
          pyBoolYN (attrGet ve.attrs "leaguegame"),
          (match x.status with | some sa => pyBoolYN (attrGet sa "complete") | none => false),
          (match ve.rules with | some ra => attrGetD ra "usedh" "N" | none => "N"),
          vt.id, ht.id, 0, 0, 0, 0, 0, 0, 0, 0⟩) := by
  simp only [parse_game_xml, hv, hrt, hrh, hnone]

theorem resolveTeams_visitor_none (lg : Nat) :
    ∀ (bs : List TeamXml) (st : RTState),
      ((resolveTeams lg bs st).visitor = none ↔
        st.visitor = none ∧ ∀ b ∈ bs, attrGet b.attrs "vh" ≠ some "V") := by
  intro bs
  induction bs with
  | nil => intro st; simp [resolveTeams]
  | cons b rest ih =>
    intro st
    rw [resolveTeams, ih]
    simp only [resolveStep]
    by_cases h : attrGet b.attrs "vh" = some "V"
    · simp [h]
    · simp [h]

theorem resolveTeams_home_none (lg : Nat) :
    ∀ (bs : List TeamXml) (st : RTState),
      ((resolveTeams lg bs st).home = none ↔
        st.home = none ∧ ∀ b ∈ bs, attrGet b.attrs "vh" = some "V") := by
  intro bs
  induction bs with
  | nil => intro st; simp [resolveTeams]
  | cons b rest ih =>
    intro st
    rw [resolveTeams, ih]
    simp only [resolveStep]
    by_cases h : attrGet b.attrs "vh" = some "V"
    · simp [h]
    · simp [h]

/-- Re-importing the identical input over the state a successful import
left persisted finds the stored game and is a committed-nothing no-op. -/
theorem parse_rerun (x : GameXml) (lg : Nat) (db : DB) (r : ImportResult)
    (h : parse_game_xml x lg db = .ok r) :
    ∃ r2, parse_game_xml x lg (persistedAfter db r) = .ok r2 ∧
      r2.game = r.game ∧ r2.isNew = false ∧ r2.didCommit = false ∧
      persistedAfter (persistedAfter db r) r2 = persistedAfter db r := by
  cases hv : x.venue with
  | none =>
    rw [parse_game_xml, hv] at h
    exact absurd h (by simp)
  | some ve =>
    cases hvis : (resolveTeams lg x.teams ⟨db, none, none, []⟩).visitor with
    | none =>
      simp only [parse_game_xml, hv, hvis] at h
      exact absurd h (by simp)
    | some vt =>
      cases hh : (resolveTeams lg x.teams ⟨db, none, none, []⟩).home with
      | none =>
        simp only [parse_game_xml, hv, hvis, hh] at h
        exact absurd h (by simp)
      | some ht =>
        cases hg : findGame (attrGetD ve.attrs "date" "") vt.id ht.id
            (attrGetD ve.attrs "start" "")
            (resolveTeams lg x.teams ⟨db, none, none, []⟩).db.games with
        | some g =>
          have hd := parse_dup x lg db ve vt ht g hv hvis hh hg
          rw [hd] at h
          have hr : r = ⟨(resolveTeams lg x.teams ⟨db, none, none, []⟩).db, false, g, false⟩ :=
            (Except.ok.injEq _ _).mp h.symm
          have hper : persistedAfter db r = db := by rw [hr]; rfl
          refine ⟨r, ?_, rfl, ?_, ?_, ?_⟩
          · rw [hper]; exact hd.trans h
          · rw [hr]
          · rw [hr]
          · rw [hper, hper]
        | none =>
          rw [parse_new x lg db ve vt ht hv hvis hh hg] at h
          have hr : r = newGameResult x (resolveTeams lg x.teams ⟨db, none, none, []⟩)
              ⟨(resolveTeams lg x.teams ⟨db, none, none, []⟩).db.nextId,
                attrGetD ve.attrs "date" "", attrGetD ve.attrs "location" "",
                attrGetD ve.attrs "stadium" "", attrGetD ve.attrs "start" "",
                attrGetD ve.attrs "duration" "", pyInt (attrGet ve.attrs "attend") 0,
                pyInt (attrGet ve.attrs "schedinn") 7, attrGetD ve.attrs "weather" "",
                pyBoolYN (attrGet ve.attrs "leaguegame"),
                (match x.status with | some sa => pyBoolYN (attrGet sa "complete") | none => false),
                (match ve.rules with | some ra => attrGetD ra "usedh" "N" | none => "N"),
                vt.id, ht.id, 0, 0, 0, 0, 0, 0, 0, 0⟩ :=
            (Except.ok.injEq _ _).mp h.symm
          obtain ⟨hcommit, hisnew, hteams, hgames, hplayers, hid, hdate, hstart, hvid, hhid⟩ :=
            newGameResult_props x (resolveTeams lg x.teams ⟨db, none, none, []⟩)
              ⟨(resolveTeams lg x.teams ⟨db, none, none, []⟩).db.nextId,
                attrGetD ve.attrs "date" "", attrGetD ve.attrs "location" "",
                attrGetD ve.attrs "stadium" "", attrGetD ve.attrs "start" "",
                attrGetD ve.attrs "duration" "", pyInt (attrGet ve.attrs "attend") 0,
                pyInt (attrGet ve.attrs "schedinn") 7, attrGetD ve.attrs "weather" "",
                pyBoolYN (attrGet ve.attrs "leaguegame"),
                (match x.status with | some sa => pyBoolYN (attrGet sa "complete") | none => false),
                (match ve.rules with | some ra => attrGetD ra "usedh" "N" | none => "N"),
                vt.id, ht.id, 0, 0, 0, 0, 0, 0, 0, 0⟩
          rw [← hr] at hcommit hisnew hteams hgames hplayers hid hdate hstart hvid hhid
          have hper : persistedAfter db r = r.session := by
            rw [persistedAfter, hcommit]
            simp
          have hreplay : resolveTeams lg x.teams ⟨r.session, none, none, []⟩ =
              { resolveTeams lg x.teams ⟨db, none, none, []⟩ with db := r.session } := by
            refine resolveTeams_replay lg x.teams ⟨db, none, none, []⟩ r.session [] ?_
            rw [List.append_nil]
            exact hteams
          have hfind2 : findGame (attrGetD ve.attrs "date" "") vt.id ht.id
              (attrGetD ve.attrs "start" "") r.session.games = some r.game := by
            rw [hgames, findGame, List.find?_append]
            rw [findGame] at hg
            rw [hg]
            simp [hdate, hstart, hvid, hhid]
          have hd := parse_dup x lg r.session ve vt ht r.game hv
            (by rw [hreplay]; exact hvis) (by rw [hreplay]; exact hh)
            (by rw [hreplay]; exact hfind2)
          rw [hper]
          exact ⟨_, hd, rfl, rfl, rfl, rfl⟩

/-- A successful import commits exactly when it is a new import. -/
theorem parse_flags (x : GameXml) (lg : Nat) (db : DB) (r : ImportResult)
    (h : parse_game_xml x lg db = .ok r) : r.didCommit = r.isNew := by
  cases hv : x.venue with
  | none =>
    rw [parse_game_xml, hv] at h
    exact absurd h (by simp)
  | some ve =>
    cases hvis : (resolveTeams lg x.teams ⟨db, none, none, []⟩).visitor with
    | none =>
      simp only [parse_game_xml, hv, hvis] at h
      exact absurd h (by simp)
    | some vt =>
      cases hh : (resolveTeams lg x.teams ⟨db, none, none, []⟩).home with
      | none =>
        simp only [parse_game_xml, hv, hvis, hh] at h
        exact absurd h (by simp)
      | some ht =>
        cases hg : findGame (attrGetD ve.attrs "date" "") vt.id ht.id
            (attrGetD ve.attrs "start" "")
            (resolveTeams lg x.teams ⟨db, none, none, []⟩).db.games with
        | some g =>
          rw [parse_dup x lg db ve vt ht g hv hvis hh hg] at h
          have hr := (Except.ok.injEq _ _).mp h.symm
          rw [hr]
        | none =>
          rw [parse_new x lg db ve vt ht hv hvis hh hg] at h
          have hr := (Except.ok.injEq _ _).mp h.symm
          rw [hr]
          rfl

/-- The only raising paths are the missing-venue and missing-side
validations, and a raising call persists nothing. -/
theorem parse_error_cases (x : GameXml) (lg : Nat) (db : DB) (e : String)
    (h : parse_game_xml x lg db = .error e) :
    (e = "No <venue> element found in XML" ∨
      e = "Could not find both visitor and home teams in XML") ∧
    importPersisted x lg db = db := by
  refine ⟨?_, by rw [importPersisted, h]⟩
  cases hv : x.venue with
  | none =>
    rw [parse_game_xml, hv] at h
    simp at h
    exact Or.inl h.symm
  | some ve =>
    cases hvis : (resolveTeams lg x.teams ⟨db, none, none, []⟩).visitor with
    | none =>
      simp only [parse_game_xml, hv, hvis] at h
      simp at h
      exact Or.inr h.symm
    | some vt =>
      cases hh : (resolveTeams lg x.teams ⟨db, none, none, []⟩).home with
      | none =>
        simp only [parse_game_xml, hv, hvis, hh] at h
        simp at h
        exact Or.inr h.symm
      | some ht =>
        cases hg : findGame (attrGetD ve.attrs "date" "") vt.id ht.id
            (attrGetD ve.attrs "start" "")
            (resolveTeams lg x.teams ⟨db, none, none, []⟩).db.games with
        | some g =>
          rw [parse_dup x lg db ve vt ht g hv hvis hh hg] at h
          exact absurd h (by simp)
        | none =>
          rw [parse_new x lg db ve vt ht hv hvis hh hg] at h
          exact absurd h (by simp)

/-- A committed new import appends exactly the returned game row to the
game table, whose identity key was absent before. -/
theorem parse_new_games (x : GameXml) (lg : Nat) (db : DB) (r : ImportResult)
    (h : parse_game_xml x lg db = .ok r) (hnew : r.isNew = true) :
    r.didCommit = true ∧
    (persistedAfter db r).games = db.games ++ [r.game] ∧
    findGame r.game.date r.game.visitor_team_id r.game.home_team_id r.game.start_time
      db.games = none := by
  cases hv : x.venue with
  | none =>
    rw [parse_game_xml, hv] at h
    exact absurd h (by simp)
  | some ve =>
    cases hvis : (resolveTeams lg x.teams ⟨db, none, none, []⟩).visitor with
    | none =>
      simp only [parse_game_xml, hv, hvis] at h
      exact absurd h (by simp)
    | some vt =>
      cases hh : (resolveTeams lg x.teams ⟨db, none, none, []⟩).home with
      | none =>
        simp only [parse_game_xml, hv, hvis, hh] at h
        exact absurd h (by simp)
      | some ht =>
        cases hg : findGame (attrGetD ve.attrs "date" "") vt.id ht.id
            (attrGetD ve.attrs "start" "")
            (resolveTeams lg x.teams ⟨db, none, none, []⟩).db.games with
        | some g =>
          rw [parse_dup x lg db ve vt ht g hv hvis hh hg] at h
          have hr := (Except.ok.injEq _ _).mp h.symm
          rw [hr] at hnew
          exact absurd hnew (by simp)
        | none =>
          rw [parse_new x lg db ve vt ht hv hvis hh hg] at h
          have hr := (Except.ok.injEq _ _).mp h.symm
          obtain ⟨hcommit, hisnew, hteams, hgames, hplayers, hid, hdate, hstart, hvid, hhid⟩ :=
            newGameResult_props x (resolveTeams lg x.teams ⟨db, none, none, []⟩)
              ⟨(resolveTeams lg x.teams ⟨db, none, none, []⟩).db.nextId,
                attrGetD ve.attrs "date" "", attrGetD ve.attrs "location" "",
                attrGetD ve.attrs "stadium" "", attrGetD ve.attrs "start" "",
                attrGetD ve.attrs "duration" "", pyInt (attrGet ve.attrs "attend") 0,
                pyInt (attrGet ve.attrs "schedinn") 7, attrGetD ve.attrs "weather" "",
                pyBoolYN (attrGet ve.attrs "leaguegame"),
                (match x.status with | some sa => pyBoolYN (attrGet sa "complete") | none => false),
                (match ve.rules with | some ra => attrGetD ra "usedh" "N" | none => "N"),
                vt.id, ht.id, 0, 0, 0, 0, 0, 0, 0, 0⟩
          rw [← hr] at hcommit hisnew hteams hgames hplayers hid hdate hstart hvid hhid
          have hdbgames : (resolveTeams lg x.teams ⟨db, none, none, []⟩).db.games = db.games :=
            (resolveTeams_nonteam lg x.teams ⟨db, none, none, []⟩).2.1
          have hper : persistedAfter db r = r.session := by
            rw [persistedAfter, hcommit]
            simp
          refine ⟨hcommit, ?_, ?_⟩
          · rw [hper, hgames, hdbgames]
          · rw [hdate, hstart, hvid, hhid]
            rw [hdbgames] at hg
            exact hg

/-! ### Concrete fixtures used by the witnesses -/

def wDB0 : DB := ⟨[], [], [], [], [], [], [], [], 1⟩

def wVenue : VenueXml := ⟨[("date", "2025-04-01"), ("start", "4:00 PM")], none⟩

def wTeamV : TeamXml :=
  ⟨[("vh", "V"), ("code", "EGL"), ("id", "X1"), ("name", "Eagles")],
    some ⟨[("runs", "0"), ("hits", "3")], [[("inn", "1"), ("score", "0")]]⟩,
    [⟨[("name", "A. Huffman"), ("uni", "12"), ("gp", "1"), ("gs", "1"), ("playerId", "p9")],
      some [("ab", "3"), ("h", "3"), ("double", "1")],
      none,
      some [("ip", "4.1"), ("er", "3"), ("win", "N")]⟩]⟩

def wTeamH : TeamXml :=
  ⟨[("vh", "H"), ("code", "TGR"), ("name", "Tigers")], none,
    [⟨[("name", "B. Smith"), ("uni", "7"), ("gp", "0")], some [("ab", "2")], none, none⟩]⟩

def wX : GameXml := ⟨some wVenue, some [("complete", "Y")], [wTeamV, wTeamH], none⟩

def wDB1 : DB := importPersisted wX 5 wDB0

def wXbad : GameXml := ⟨none, none, [], none⟩

/-! ### The claims -/

/-- C1: for every stored state and game file whose game identity key
(date, visitor team, home team, start time) already matches a stored
game, the import returns that stored game and writes no new game row and
no child rows of any kind (inning scores, batting, pitching, fielding,
plays); and importing byte-identical content a second time over the state
the first import persisted is a no-op: it returns the same game, persists
nothing further, and leaves exactly one game row with that identity
key. -/
theorem claim_C1_duplicate_import_noop :
    (∀ (x : GameXml) (lg : Nat) (db : DB) (ve : VenueXml) (vt ht : Team) (g : Game),
      x.venue = some ve →
      (resolveTeams lg x.teams ⟨db, none, none, []⟩).visitor = some vt →
      (resolveTeams lg x.teams ⟨db, none, none, []⟩).home = some ht →
      findGame (attrGetD ve.attrs "date" "") vt.id ht.id (attrGetD ve.attrs "start" "")
        (resolveTeams lg x.teams ⟨db, none, none, []⟩).db.games = some g →
      parse_game_xml x lg db =
        .ok ⟨(resolveTeams lg x.teams ⟨db, none, none, []⟩).db, false, g, false⟩ ∧
      (resolveTeams lg x.teams ⟨db, none, none, []⟩).db.games = db.games ∧
      (resolveTeams lg x.teams ⟨db, none, none, []⟩).db.innings = db.innings ∧
      (resolveTeams lg x.teams ⟨db, none, none, []⟩).db.batting = db.batting ∧
      (resolveTeams lg x.teams ⟨db, none, none, []⟩).db.pitching = db.pitching ∧
      (resolveTeams lg x.teams ⟨db, none, none, []⟩).db.fielding = db.fielding ∧
      (resolveTeams lg x.teams ⟨db, none, none, []⟩).db.plays = db.plays) ∧
    (∀ (x : GameXml) (lg : Nat) (db : DB) (r : ImportResult),
      parse_game_xml x lg db = .ok r →
      ∃ r2, parse_game_xml x lg (persistedAfter db r) = .ok r2 ∧
        r2.game = r.game ∧ r2.isNew = false ∧
        persistedAfter (persistedAfter db r) r2 = persistedAfter db r ∧
        (r.isNew = true →
          ((persistedAfter db r).games.filter (fun g' =>
            g'.date == r.game.date && g'.visitor_team_id == r.game.visitor_team_id &&
              g'.home_team_id == r.game.home_team_id &&
              g'.start_time == r.game.start_time)).length = 1)) := by
  constructor
  · intro x lg db ve vt ht g hv hrt hrh hfind
    obtain ⟨hp, hg, hi, hb, hpi, hf, hpl⟩ := resolveTeams_nonteam lg x.teams ⟨db, none, none, []⟩
    exact ⟨parse_dup x lg db ve vt ht g hv hrt hrh hfind, hg, hi, hb, hpi, hf, hpl⟩
  · intro x lg db r h
    obtain ⟨r2, h1, h2, h3, _, h5⟩ := parse_rerun x lg db r h
    refine ⟨r2, h1, h2, h3, h5, ?_⟩
    intro hnew
    obtain ⟨_, hgames, hnone⟩ := parse_new_games x lg db r h hnew
    rw [hgames, List.filter_append]
    have h0 : db.games.filter (fun g' =>
        g'.date == r.game.date && g'.visitor_team_id == r.game.visitor_team_id &&
          g'.home_team_id == r.game.home_team_id &&
          g'.start_time == r.game.start_time) = [] := by
      rw [List.filter_eq_nil_iff]
      rw [findGame] at hnone
      intro a ha
      simpa using List.find?_eq_none.mp hnone a ha
    rw [h0]
    simp

theorem claim_C1_witness :
    (∃ g, parse_game_xml wX 5 wDB1 =
        .ok ⟨(resolveTeams 5 wX.teams ⟨wDB1, none, none, []⟩).db, false, g, false⟩ ∧
      (resolveTeams 5 wX.teams ⟨wDB1, none, none, []⟩).db.games = wDB1.games) ∧
    (∃ r r2, parse_game_xml wX 5 wDB0 = .ok r ∧
      parse_game_xml wX 5 (persistedAfter wDB0 r) = .ok r2 ∧ r2.game = r.game ∧
      r2.isNew = false) := by
  constructor
  · obtain ⟨h1, h2, _⟩ :=
      claim_C1_duplicate_import_noop.1 wX 5 wDB1 wVenue _ _ _ rfl rfl rfl rfl
    exact ⟨_, h1, h2⟩
  · obtain ⟨r2, h1, h2, h3, _, _⟩ := claim_C1_duplicate_import_noop.2 wX 5 wDB0 _ rfl
    exact ⟨_, r2, rfl, h1, h2, h3⟩

/-- C9: the import is all-or-nothing.  A call that raises persists
nothing (and the only raising paths are the two input validations, both
of which run before any write); a duplicate no-op call persists nothing;
and a successful new import commits, the commit being the final step
after the game and all its children are written into the session. -/
theorem claim_C9_atomic_import :
    ∀ (x : GameXml) (lg : Nat) (db : DB),
      (∀ e, parse_game_xml x lg db = .error e →
        importPersisted x lg db = db ∧
        (e = "No <venue> element found in XML" ∨
          e = "Could not find both visitor and home teams in XML")) ∧
      (∀ r, parse_game_xml x lg db = .ok r →
        (r.isNew = false → importPersisted x lg db = db) ∧
        (r.isNew = true → r.didCommit = true ∧ importPersisted x lg db = r.session)) := by
  intro x lg db
  constructor
  · intro e he
    have h := parse_error_cases x lg db e he
    exact ⟨h.2, h.1⟩
  · intro r hr
    have hflag := parse_flags x lg db r hr
    constructor
    · intro hnew
      simp only [importPersisted, hr, persistedAfter]
      rw [hflag, hnew]
      simp
    · intro hnew
      have hc : r.didCommit = true := hflag.trans hnew
      refine ⟨hc, ?_⟩
      simp only [importPersisted, hr, persistedAfter, hc]
      simp

theorem claim_C9_witness :
    importPersisted wXbad 5 wDB0 = wDB0 ∧
    (∃ r, parse_game_xml wX 5 wDB0 = .ok r ∧ r.didCommit = true ∧
      importPersisted wX 5 wDB0 = r.session) := by
  constructor
  · exact ((claim_C9_atomic_import wXbad 5 wDB0).1 "No <venue> element found in XML" rfl).1
  · obtain ⟨hc, hp⟩ := ((claim_C9_atomic_import wX 5 wDB0).2 _ rfl).2 rfl
    exact ⟨_, rfl, hc, hp⟩

/-- C10: team lookup-or-create runs before the duplicate-game check (the
check is keyed by the resolved teams' ids over the team-resolution output
state), and the duplicate path returns that session state without
committing, so nothing created during the call — including any team row
added and flushed by lookup-or-create — is persisted by that call. -/
theorem claim_C10_dup_path_no_commit :
    ∀ (x : GameXml) (lg : Nat) (db : DB) (ve : VenueXml) (vt ht : Team) (g : Game),
      x.venue = some ve →
      (resolveTeams lg x.teams ⟨db, none, none, []⟩).visitor = some vt →
      (resolveTeams lg x.teams ⟨db, none, none, []⟩).home = some ht →
      findGame (attrGetD ve.attrs "date" "") vt.id ht.id (attrGetD ve.attrs "start" "")
        (resolveTeams lg x.teams ⟨db, none, none, []⟩).db.games = some g →
      parse_game_xml x lg db =
        .ok ⟨(resolveTeams lg x.teams ⟨db, none, none, []⟩).db, false, g, false⟩ ∧
      importPersisted x lg db = db := by
  intro x lg db ve vt ht g hv hrt hrh hfind
  have hd := parse_dup x lg db ve vt ht g hv hrt hrh hfind
  refine ⟨hd, ?_⟩
  simp only [importPersisted, hd, persistedAfter]
  rfl

theorem claim_C10_witness :
    ∃ g, parse_game_xml wX 5 wDB1 =
      .ok ⟨(resolveTeams 5 wX.teams ⟨wDB1, none, none, []⟩).db, false, g, false⟩ ∧
      importPersisted wX 5 wDB1 = wDB1 := by
  obtain ⟨h1, h2⟩ := claim_C10_dup_path_no_commit wX 5 wDB1 wVenue _ _ _ rfl rfl rfl rfl
  exact ⟨_, h1, h2⟩

/-- Whatever one import call leaves persisted, the player table only
evolves: rows are appended or have an empty external id backfilled. -/
theorem importPersisted_players_evolve (x : GameXml) (lg : Nat) (db : DB) :
    playersEvolve db.players (importPersisted x lg db).players := by
  cases hp : parse_game_xml x lg db with
  | error e =>
    simp only [importPersisted, hp]
    exact playersEvolve_refl _
  | ok r =>
    have hflag := parse_flags x lg db r hp
    simp only [importPersisted, hp, persistedAfter]
    cases hnew : r.isNew with
    | false =>
      rw [hflag, hnew]
      simp only [Bool.false_eq_true, if_false]
      exact playersEvolve_refl _
    | true =>
      rw [hflag, hnew]
      simp only [if_true]
      cases hv : x.venue with
      | none =>
        rw [parse_game_xml, hv] at hp
        exact absurd hp (by simp)
      | some ve =>
        cases hvis : (resolveTeams lg x.teams ⟨db, none, none, []⟩).visitor with
        | none =>
          simp only [parse_game_xml, hv, hvis] at hp
          exact absurd hp (by simp)
        | some vt =>
          cases hh : (resolveTeams lg x.teams ⟨db, none, none, []⟩).home with
          | none =>
            simp only [parse_game_xml, hv, hvis, hh] at hp
            exact absurd hp (by simp)
          | some ht =>
            cases hg : findGame (attrGetD ve.attrs "date" "") vt.id ht.id
                (attrGetD ve.attrs "start" "")
                (resolveTeams lg x.teams ⟨db, none, none, []⟩).db.games with
            | some g =>
              rw [parse_dup x lg db ve vt ht g hv hvis hh hg] at hp
              have hr := (Except.ok.injEq _ _).mp hp.symm
              rw [hr]
              have := (resolveTeams_nonteam lg x.teams ⟨db, none, none, []⟩).1
              rw [this]
              exact playersEvolve_refl _
            | none =>
              rw [parse_new x lg db ve vt ht hv hvis hh hg] at hp
              have hr := (Except.ok.injEq _ _).mp hp.symm
              obtain ⟨_, _, _, _, hplayers, _, _, _, _, _⟩ :=
                newGameResult_props x (resolveTeams lg x.teams ⟨db, none, none, []⟩)
                  ⟨(resolveTeams lg x.teams ⟨db, none, none, []⟩).db.nextId,
                    attrGetD ve.attrs "date" "", attrGetD ve.attrs "location" "",
                    attrGetD ve.attrs "stadium" "", attrGetD ve.attrs "start" "",
                    attrGetD ve.attrs "duration" "", pyInt (attrGet ve.attrs "attend") 0,
                    pyInt (attrGet ve.attrs "schedinn") 7, attrGetD ve.attrs "weather" "",
                    pyBoolYN (attrGet ve.attrs "leaguegame"),
                    (match x.status with
                      | some sa => pyBoolYN (attrGet sa "complete") | none => false),
                    (match ve.rules with | some ra => attrGetD ra "usedh" "N" | none => "N"),
                    vt.id, ht.id, 0, 0, 0, 0, 0, 0, 0, 0⟩
              rw [← hr] at hplayers
              rw [hr] at hplayers ⊢
              refine playersEvolve_trans ?_ hplayers
              have := (resolveTeams_nonteam lg x.teams ⟨db, none, none, []⟩).1
              rw [this]
              exact playersEvolve_refl _

/-- C5: a stored external identifier is never overwritten.  Through any
import, a player row whose stored external id is non-empty survives
unchanged at its position; on a lookup hit the resolver writes an
external id only when the stored one is empty and the incoming one is
non-empty, in which case it is backfilled; a player already carrying an
id keeps it regardless of what a later import supplies. -/
theorem claim_C5_external_id_backfill_only :
    (∀ (x : GameXml) (lg : Nat) (db : DB) (i : Nat) (h : i < db.players.length)
        (h' : i < (importPersisted x lg db).players.length),
      (db.players.get ⟨i, h⟩).external_id ≠ "" →
      (importPersisted x lg db).players.get ⟨i, h'⟩ = db.players.get ⟨i, h⟩) ∧
    (∀ (px : AttrMap) (tid : Nat) (db : DB) (p : Player),
      findPlayer (attrGetD px "name" "") (attrGetD px "uni" "") tid db.players = some p →
      p.external_id = "" → attrGetD px "playerId" "" ≠ "" →
      (playerLookupOrCreate px tid db).2 =
        { p with external_id := attrGetD px "playerId" "" }) ∧
    (∀ (px : AttrMap) (tid : Nat) (db : DB) (p : Player),
      findPlayer (attrGetD px "name" "") (attrGetD px "uni" "") tid db.players = some p →
      p.external_id ≠ "" →
      playerLookupOrCreate px tid db = (db, p)) := by
  refine ⟨?_, ?_, ?_⟩
  · intro x lg db i h h' hne
    obtain ⟨pfx, nw, heq, hf⟩ := importPersisted_players_evolve x lg db
    have hlen := hf.length_eq
    have hi : i < pfx.length := hlen ▸ h
    have hr : extEvolves (db.players.get ⟨i, h⟩) (pfx.get ⟨i, hi⟩) :=
      (List.forall₂_iff_get.mp hf).2 i h hi
    have hgetapp : (importPersisted x lg db).players.get ⟨i, h'⟩ = pfx.get ⟨i, hi⟩ := by
      have : (importPersisted x lg db).players = pfx ++ nw := heq
      simp only [List.get_eq_getElem, this]
      exact List.getElem_append_left hi
    rw [hgetapp]
    exact extEvolves_of_nonempty hr hne
  · intro px tid db p hfind hempty hnonempty
    simp only [playerLookupOrCreate, hfind]
    rw [if_pos ⟨hnonempty, hempty⟩]
  · intro px tid db p hfind hne
    simp only [playerLookupOrCreate, hfind]
    rw [if_neg (fun hc => hne hc.2)]

theorem claim_C5_witness :
    ((importPersisted wX 5 wDB1).players.get ⟨0, by decide⟩ =
      wDB1.players.get ⟨0, by decide⟩) ∧
    (∃ p, findPlayer "A. Huffman" "12" 1 wDB1.players = some p ∧
      playerLookupOrCreate [("name", "A. Huffman"), ("uni", "12"), ("playerId", "q7")] 1 wDB1 =
        (wDB1, p)) := by
  constructor
  · exact claim_C5_external_id_backfill_only.1 wX 5 wDB1 0 (by decide) (by decide) (by decide)
  · exact ⟨_, rfl, claim_C5_external_id_backfill_only.2.2
      [("name", "A. Huffman"), ("uni", "12"), ("playerId", "q7")] 1 wDB1 _ rfl (by decide)⟩

/-! ### Natural-key distinctness: lookup-before-create never duplicates a
team or player identity key. -/

def TeamKeysDistinct (ts : List Team) : Prop :=
  ts.Pairwise (fun a b => ¬(a.code = b.code ∧ a.league_id = b.league_id))

def PlayerKeysDistinct (ps : List Player) : Prop :=
  ps.Pairwise (fun a b =>
    ¬(a.name = b.name ∧ a.uniform_number = b.uniform_number ∧ a.team_id = b.team_id))

theorem updFirst_mem {α : Type} (pred : α → Bool) (f : α → α) :
    ∀ (l : List α) (a : α), a ∈ updFirst pred f l → ∃ b ∈ l, a = b ∨ a = f b := by
  intro l
  induction l with
  | nil => intro a ha; cases ha
  | cons x xs ih =>
    intro a ha
    rw [updFirst] at ha
    by_cases hx : pred x
    · rw [if_pos hx] at ha
      rcases List.mem_cons.mp ha with h | h
      · exact ⟨x, List.mem_cons_self x xs, Or.inr h⟩
      · exact ⟨a, List.mem_cons_of_mem _ h, Or.inl rfl⟩
    · rw [if_neg hx] at ha
      rcases List.mem_cons.mp ha with h | h
      · exact ⟨x, List.mem_cons_self x xs, Or.inl h⟩
      · obtain ⟨b, hb, hor⟩ := ih a h
        exact ⟨b, List.mem_cons_of_mem _ hb, hor⟩

theorem pairwise_updFirst {α : Type} {R : α → α → Prop} (pred : α → Bool) (f : α → α)
    (hf : ∀ a b, R a b → R a (f b)) (hf2 : ∀ a b, R a b → R (f a) b) :
    ∀ l : List α, l.Pairwise R → (updFirst pred f l).Pairwise R := by
  intro l
  induction l with
  | nil => intro _; exact .nil
  | cons x xs ih =>
    intro hp
    cases hp with
    | cons hh ht =>
      rw [updFirst]
      by_cases hx : pred x
      · rw [if_pos hx]
        exact .cons (fun b hb => hf2 x b (hh b hb)) ht
      · rw [if_neg hx]
        refine .cons ?_ (ih ht)
        intro a ha
        obtain ⟨b, hb, hor⟩ := updFirst_mem pred f xs a ha
        rcases hor with h1 | h1
        · rw [h1]; exact hh b hb
        · rw [h1]; exact hf x b (hh b hb)

theorem teamLookupOrCreate_keys (code extId name : String) (lg : Nat) (db : DB)
    (h : TeamKeysDistinct db.teams) :
    TeamKeysDistinct (teamLookupOrCreate code extId name lg db).1.teams := by
  unfold teamLookupOrCreate
  cases hf : findTeam code lg db.teams with
  | some t => exact h
  | none =>
    rw [TeamKeysDistinct, List.pairwise_append]
    refine ⟨h, List.pairwise_singleton _ _, ?_⟩
    intro a ha b hb
    rw [List.mem_singleton] at hb
    subst hb
    rw [findTeam] at hf
    have hne := List.find?_eq_none.mp hf a ha
    simp only [Bool.and_eq_true, beq_iff_eq, not_and] at hne
    intro hcon
    exact hne hcon.1 hcon.2

theorem resolveTeams_keys (lg : Nat) :
    ∀ (bs : List TeamXml) (st : RTState),
      TeamKeysDistinct st.db.teams → TeamKeysDistinct (resolveTeams lg bs st).db.teams := by
  intro bs
  induction bs with
  | nil => intro st h; exact h
  | cons b rest ih =>
    intro st h
    rw [resolveTeams]
    exact ih _ (teamLookupOrCreate_keys _ _ _ _ _ h)

theorem playerLookupOrCreate_keys (px : AttrMap) (tid : Nat) (db : DB)
    (h : PlayerKeysDistinct db.players) :
    PlayerKeysDistinct (playerLookupOrCreate px tid db).1.players := by
  simp only [playerLookupOrCreate]
  split
  · next p hf =>
    split
    · next hc =>
      refine pairwise_updFirst _ _ ?_ ?_ db.players h
      · intro a b hr hcon
        exact hr hcon
      · intro a b hr hcon
        exact hr hcon
    · next => exact h
  · next hf =>
    rw [PlayerKeysDistinct, List.pairwise_append]
    refine ⟨h, List.pairwise_singleton _ _, ?_⟩
    intro a ha b hb
    rw [List.mem_singleton] at hb
    subst hb
    rw [findPlayer] at hf
    have hne := List.find?_eq_none.mp hf a ha
    simp only [Bool.and_eq_true, beq_iff_eq, not_and] at hne
    intro hcon
    exact hne ⟨hcon.1, hcon.2.1⟩ hcon.2.2

theorem processPlayer_keys (gid tid : Nat) (db : DB) (px : PlayerXml)
    (h : PlayerKeysDistinct db.players) :
    PlayerKeysDistinct (processPlayer gid tid db px).players := by
  simp only [processPlayer]
  split
  · exact playerLookupOrCreate_keys px.attrs tid db h
  · cases px.hitting <;> cases px.fielding <;> cases px.pitching <;>
      exact playerLookupOrCreate_keys px.attrs tid db h

theorem processLineinn_keys (vh : Option String) (gid : Nat) (db : DB) (li : AttrMap)
    (h : PlayerKeysDistinct db.players) :
    PlayerKeysDistinct (processLineinn vh gid db li).players := by
  simp only [processLineinn]
  split <;> exact h

theorem applyLinescore_keys (vh : Option String) (ls : LinescoreXml) (g : Game) (db : DB)
    (h : PlayerKeysDistinct db.players) :
    PlayerKeysDistinct (applyLinescore vh ls g db).2.players := by
  simp only [applyLinescore]
  exact foldl_rel
    (fun d d' : DB => PlayerKeysDistinct d.players → PlayerKeysDistinct d'.players)
    _ (fun d h3 => h3) (fun h1 h2 h3 => h2 (h1 h3))
    (fun d li h3 => processLineinn_keys vh g.id d li h3) ls.lineinns db h

theorem players_foldl_keys (gid tid : Nat) (ps : List PlayerXml) (db : DB)
    (h : PlayerKeysDistinct db.players) :
    PlayerKeysDistinct ((ps.foldl (processPlayer gid tid) db)).players :=
  foldl_rel (fun d d' : DB => PlayerKeysDistinct d.players → PlayerKeysDistinct d'.players)
    _ (fun d h3 => h3) (fun h1 h2 h3 => h2 (h1 h3))
    (fun d px h3 => processPlayer_keys gid tid d px h3) ps db h

theorem processTeamEntry_keys (acc : Game × DB) (entry : Option String × (Team × TeamXml))
    (h : PlayerKeysDistinct acc.2.players) :
    PlayerKeysDistinct (processTeamEntry acc entry).2.players := by
  simp only [processTeamEntry]
  cases hls : entry.2.2.linescore with
  | none => exact players_foldl_keys _ _ _ _ h
  | some ls => exact players_foldl_keys _ _ _ _ (applyLinescore_keys _ _ _ _ h)

theorem teamMap_foldl_keys (m : List (Option String × (Team × TeamXml))) (acc : Game × DB)
    (h : PlayerKeysDistinct acc.2.players) :
    PlayerKeysDistinct ((m.foldl processTeamEntry acc)).2.players :=
  foldl_rel
    (fun a b : Game × DB => PlayerKeysDistinct a.2.players → PlayerKeysDistinct b.2.players)
    _ (fun a h3 => h3) (fun h1 h2 h3 => h2 (h1 h3))
    (fun a e h3 => processTeamEntry_keys a e h3) m acc h

theorem keys_if_play (d : DB) (row : Play) (c : Prop) [Decidable c] :
    (if c then { d with plays := d.plays ++ [row], nextId := d.nextId + 1 } else d).players =
      d.players := by
  by_cases h : c
  · rw [if_pos h]
  · rw [if_neg h]

theorem processPlay_keys (gid : Nat) (inn : Int) (half : String) (db : DB) (p : PlayXml)
    (h : PlayerKeysDistinct db.players) :
    PlayerKeysDistinct (processPlay gid inn half db p).players := by
  simp only [processPlay]
  rw [keys_if_play]
  exact h

theorem processPlaysSection_keys (gid : Nat) (ps : Option (List InningXml)) (db : DB)
    (h : PlayerKeysDistinct db.players) :
    PlayerKeysDistinct (processPlaysSection gid ps db).players := by
  cases ps with
  | none => exact h
  | some inns =>
    refine foldl_rel
      (fun d d' : DB => PlayerKeysDistinct d.players → PlayerKeysDistinct d'.players)
      _ (fun d h3 => h3) (fun h1 h2 h3 => h2 (h1 h3)) ?_ inns db h
    intro d ix h3
    simp only [processInningPlays]
    refine foldl_rel
      (fun d d' : DB => PlayerKeysDistinct d.players → PlayerKeysDistinct d'.players)
      _ (fun d h4 => h4) (fun h1 h2 h4 => h2 (h1 h4)) ?_ ix.battings d h3
    intro d2 bx h4
    exact foldl_rel
      (fun d d' : DB => PlayerKeysDistinct d.players → PlayerKeysDistinct d'.players)
      _ (fun d h5 => h5) (fun h1 h2 h5 => h2 (h1 h5))
      (fun d3 pl h5 => processPlay_keys _ _ _ d3 pl h5) bx.plays d2 h4

/-- Any import preserves distinctness of team and player identity keys:
no duplicate row for an identity key is ever created. -/
theorem importPersisted_keys (x : GameXml) (lg : Nat) (db : DB) :
    (TeamKeysDistinct db.teams → TeamKeysDistinct (importPersisted x lg db).teams) ∧
    (PlayerKeysDistinct db.players → PlayerKeysDistinct (importPersisted x lg db).players) := by
  cases hp : parse_game_xml x lg db with
  | error e =>
    simp only [importPersisted, hp]
    exact ⟨fun h => h, fun h => h⟩
  | ok r =>
    have hflag := parse_flags x lg db r hp
    simp only [importPersisted, hp, persistedAfter]
    cases hnew : r.isNew with
    | false =>
      rw [hflag, hnew]
      simp only [Bool.false_eq_true, if_false]
      exact ⟨fun h => h, fun h => h⟩
    | true =>
      rw [hflag, hnew]
      simp only [if_true]
      cases hv : x.venue with
      | none =>
        rw [parse_game_xml, hv] at hp
        exact absurd hp (by simp)
      | some ve =>
        cases hvis : (resolveTeams lg x.teams ⟨db, none, none, []⟩).visitor with
        | none =>
          simp only [parse_game_xml, hv, hvis] at hp
          exact absurd hp (by simp)
        | some vt =>
          cases hh : (resolveTeams lg x.teams ⟨db, none, none, []⟩).home with
          | none =>
            simp only [parse_game_xml, hv, hvis, hh] at hp
            exact absurd hp (by simp)
          | some ht =>
            cases hg : findGame (attrGetD ve.attrs "date" "") vt.id ht.id
                (attrGetD ve.attrs "start" "")
                (resolveTeams lg x.teams ⟨db, none, none, []⟩).db.games with
            | some g =>
              rw [parse_dup x lg db ve vt ht g hv hvis hh hg] at hp
              have hr := (Except.ok.injEq _ _).mp hp.symm
              rw [hr] at hnew
              exact absurd hnew (by simp)
            | none =>
              rw [parse_new x lg db ve vt ht hv hvis hh hg] at hp
              have hr := (Except.ok.injEq _ _).mp hp.symm
              obtain ⟨_, _, hteams, _, _, _, _, _, _, _⟩ :=
                newGameResult_props x (resolveTeams lg x.teams ⟨db, none, none, []⟩)
                  ⟨(resolveTeams lg x.teams ⟨db, none, none, []⟩).db.nextId,
                    attrGetD ve.attrs "date" "", attrGetD ve.attrs "location" "",
                    attrGetD ve.attrs "stadium" "", attrGetD ve.attrs "start" "",
                    attrGetD ve.attrs "duration" "", pyInt (attrGet ve.attrs "attend") 0,
                    pyInt (attrGet ve.attrs "schedinn") 7, attrGetD ve.attrs "weather" "",
                    pyBoolYN (attrGet ve.attrs "leaguegame"),
                    (match x.status with
                      | some sa => pyBoolYN (attrGet sa "complete") | none => false),
                    (match ve.rules with | some ra => attrGetD ra "usedh" "N" | none => "N"),
                    vt.id, ht.id, 0, 0, 0, 0, 0, 0, 0, 0⟩
              rw [← hr] at hteams
              constructor
              · intro h
                rw [hteams]
                exact resolveTeams_keys lg x.teams ⟨db, none, none, []⟩ h
              · intro h
                rw [hr]
                simp only [newGameResult]
                refine processPlaysSection_keys _ _ _ (teamMap_foldl_keys _ _ ?_)
                show PlayerKeysDistinct
                  (resolveTeams lg x.teams ⟨db, none, none, []⟩).db.players
                rw [(resolveTeams_nonteam lg x.teams ⟨db, none, none, []⟩).1]
                exact h

/-! ### Lookup-or-create idempotence -/

theorem playerLookupOrCreate_find (px : AttrMap) (tid : Nat) (db : DB) :
    findPlayer (attrGetD px "name" "") (attrGetD px "uni" "") tid
      (playerLookupOrCreate px tid db).1.players = some (playerLookupOrCreate px tid db).2 := by
  simp only [playerLookupOrCreate]
  split
  · next p hf =>
    split
    · next hc =>
      rw [findPlayer] at hf ⊢
      dsimp only
      rw [find?_updFirst
        (fun q : Player =>
          q.name == attrGetD px "name" "" && q.uniform_number == attrGetD px "uni" "" &&
            q.team_id == tid)
        (fun q : Player => { q with external_id := attrGetD px "playerId" "" })
        (fun q => rfl)]
      rw [hf]
      rfl
    · next hc => exact hf
  · next hf =>
    rw [findPlayer, List.find?_append]
    rw [findPlayer] at hf
    rw [hf]
    simp

theorem playerLookupOrCreate_ext_empty (px : AttrMap) (tid : Nat) (db : DB)
    (h : (playerLookupOrCreate px tid db).2.external_id = "") :
    attrGetD px "playerId" "" = "" := by
  by_contra hne
  revert h
  simp only [playerLookupOrCreate]
  split
  · next p hf =>
    split
    · next hc => exact fun h => hne h
    · next hc => exact fun h => hc ⟨hne, h⟩
  · next hf => exact fun h => hne h

theorem teamLookupOrCreate_idem (code extId name : String) (lg : Nat) (db : DB) :
    teamLookupOrCreate code extId name lg (teamLookupOrCreate code extId name lg db).1 =
      ((teamLookupOrCreate code extId name lg db).1,
        (teamLookupOrCreate code extId name lg db).2) :=
  teamLookupOrCreate_hit _ _ _ _ _ _ (teamLookupOrCreate_find code extId name lg db)

theorem playerLookupOrCreate_idem (px : AttrMap) (tid : Nat) (db : DB) :
    playerLookupOrCreate px tid (playerLookupOrCreate px tid db).1 =
      ((playerLookupOrCreate px tid db).1, (playerLookupOrCreate px tid db).2) := by
  have hfind := playerLookupOrCreate_find px tid db
  have hext := playerLookupOrCreate_ext_empty px tid db
  rcases hE : playerLookupOrCreate px tid db with ⟨d1, p1⟩
  rw [hE] at hfind hext
  simp only [playerLookupOrCreate, hfind]
  rw [if_neg ?hneg]
  case hneg =>
    rintro ⟨hne, hempty⟩
    exact hne (hext hempty)

/-- C6: entity resolution is idempotent.  Running the team
lookup-or-create twice with the same descriptor, or the player
lookup-or-create twice with the same block, returns the same row and
changes nothing the second time; and every import preserves distinctness
of team and player identity keys, so no duplicate row for an identity
key is ever created across imports. -/
theorem claim_C6_entity_resolution_idempotent :
    (∀ (code extId name : String) (lg : Nat) (db : DB),
      teamLookupOrCreate code extId name lg (teamLookupOrCreate code extId name lg db).1 =
        ((teamLookupOrCreate code extId name lg db).1,
          (teamLookupOrCreate code extId name lg db).2)) ∧
    (∀ (px : AttrMap) (tid : Nat) (db : DB),
      playerLookupOrCreate px tid (playerLookupOrCreate px tid db).1 =
        ((playerLookupOrCreate px tid db).1, (playerLookupOrCreate px tid db).2)) ∧
    (∀ (x : GameXml) (lg : Nat) (db : DB),
      (TeamKeysDistinct db.teams → TeamKeysDistinct (importPersisted x lg db).teams) ∧
      (PlayerKeysDistinct db.players →
        PlayerKeysDistinct (importPersisted x lg db).players)) :=
  ⟨teamLookupOrCreate_idem, playerLookupOrCreate_idem, importPersisted_keys⟩

theorem claim_C6_witness :
    TeamKeysDistinct (importPersisted wX 5 wDB0).teams ∧
    PlayerKeysDistinct (importPersisted wX 5 wDB0).players := by
  obtain ⟨h1, h2⟩ := (claim_C6_entity_resolution_idempotent.2.2 wX 5 wDB0)
  exact ⟨h1 List.Pairwise.nil, h2 List.Pairwise.nil⟩

/-- A file whose venue block is present and whose two team blocks both
carry vh="V": each block is classified (as visitor), yet the parser
raises because no block was classified as home. -/
def cX : GameXml :=
  ⟨some wVenue, none,
    [⟨[("vh", "V"), ("code", "AAA")], none, []⟩,
     ⟨[("vh", "V"), ("code", "BBB")], none, []⟩],
    none⟩

/-- C7 counterexample: the claim says the parser raises exactly when the
venue block is absent, fewer than two team blocks are present, or a team
block cannot be classified; here the venue is present, two team blocks
exist, and every block is classified (vh="V" makes a block the visitor;
any other value makes it the home) — yet the parser raises. -/
theorem claim_C7_counterexample :
    cX.venue.isSome = true ∧ cX.teams.length = 2 ∧
    (∀ b ∈ cX.teams, attrGet b.attrs "vh" = some "V") ∧
    parse_game_xml cX 5 wDB0 =
      .error "Could not find both visitor and home teams in XML" := by
  refine ⟨rfl, rfl, ?_, rfl⟩
  decide

/-- C7 (amended): the parser raises a ValidationError exactly when the
mandatory venue block is absent, or no team block carries vh="V" (no
visitor side), or every team block carries vh="V" (no home side — any
block with vh different from "V" is classified as home, so an
unclassifiable block never occurs).  On every other input it does not
raise. -/
theorem claim_C7_validation_error_iff :
    ∀ (x : GameXml) (lg : Nat) (db : DB),
      (∃ e, parse_game_xml x lg db = .error e) ↔
        (x.venue = none ∨ (∀ b ∈ x.teams, attrGet b.attrs "vh" ≠ some "V") ∨
          (∀ b ∈ x.teams, attrGet b.attrs "vh" = some "V")) := by
  intro x lg db
  constructor
  · rintro ⟨e, he⟩
    cases hv : x.venue with
    | none => exact Or.inl rfl
    | some ve =>
      cases hvis : (resolveTeams lg x.teams ⟨db, none, none, []⟩).visitor with
      | none =>
        exact Or.inr (Or.inl
          ((resolveTeams_visitor_none lg x.teams ⟨db, none, none, []⟩).mp hvis).2)
      | some vt =>
        cases hh : (resolveTeams lg x.teams ⟨db, none, none, []⟩).home with
        | none =>
          exact Or.inr (Or.inr
            ((resolveTeams_home_none lg x.teams ⟨db, none, none, []⟩).mp hh).2)
        | some ht =>
          cases hg : findGame (attrGetD ve.attrs "date" "") vt.id ht.id
              (attrGetD ve.attrs "start" "")
              (resolveTeams lg x.teams ⟨db, none, none, []⟩).db.games with
          | some g =>
            rw [parse_dup x lg db ve vt ht g hv hvis hh hg] at he
            exact absurd he (by simp)
          | none =>
            rw [parse_new x lg db ve vt ht hv hvis hh hg] at he
            exact absurd he (by simp)
  · intro h
    rcases h with hv | hA | hB
    · exact ⟨"No <venue> element found in XML", by simp only [parse_game_xml, hv]⟩
    · have hvis : (resolveTeams lg x.teams ⟨db, none, none, []⟩).visitor = none :=
        (resolveTeams_visitor_none lg x.teams ⟨db, none, none, []⟩).mpr ⟨rfl, hA⟩
      cases hv : x.venue with
      | none => exact ⟨"No <venue> element found in XML", by simp only [parse_game_xml, hv]⟩
      | some ve =>
        exact ⟨"Could not find both visitor and home teams in XML",
          by simp only [parse_game_xml, hv, hvis]⟩
    · have hhome : (resolveTeams lg x.teams ⟨db, none, none, []⟩).home = none :=
        (resolveTeams_home_none lg x.teams ⟨db, none, none, []⟩).mpr ⟨rfl, hB⟩
      cases hv : x.venue with
      | none => exact ⟨"No <venue> element found in XML", by simp only [parse_game_xml, hv]⟩
      | some ve =>
        cases hvis : (resolveTeams lg x.teams ⟨db, none, none, []⟩).visitor with
        | none =>
          exact ⟨"Could not find both visitor and home teams in XML",
            by simp only [parse_game_xml, hv, hvis]⟩
        | some vt =>
          exact ⟨"Could not find both visitor and home teams in XML",
            by simp only [parse_game_xml, hv, hvis, hhome]⟩

/-! ### Aggregation field lemmas -/

theorem aggregate_pitching_fields (stats : List PitchingStats) (h : stats.isEmpty = false) :
    (aggregate_pitching stats).map (fun t => t.ip) =
      some (if (totalThirds stats).fmod 3 ≠ 0
        then toString ((totalThirds stats).fdiv 3) ++ "." ++
          toString ((totalThirds stats).fmod 3)
        else toString ((totalThirds stats).fdiv 3)) ∧
    (aggregate_pitching stats).map (fun t => t.era) =
      some (if 0 < totalThirds stats
        then fmtDivFixed ((stats.map (fun s => s.er)).sum * 7 * 3) (totalThirds stats) 2
        else "0.00") ∧
    (aggregate_pitching stats).map (fun t => t.w) =
      some ((stats.filter (fun s => s.win)).length) ∧
    (aggregate_pitching stats).map (fun t => t.l) =
      some ((stats.filter (fun s => s.loss)).length) ∧
    (aggregate_pitching stats).map (fun t => t.sv) =
      some ((stats.filter (fun s => s.save)).length) ∧
    (aggregate_pitching stats).map (fun t => t.er) =
      some ((stats.map (fun s => s.er)).sum) := by
  simp only [aggregate_pitching, h, Bool.false_eq_true, if_false, Option.map_some']
  exact ⟨trivial, trivial, trivial, trivial, trivial, trivial⟩

theorem aggregate_batting_fields (stats : List BattingStats) (h : stats.isEmpty = false) :
    (aggregate_batting stats).map (fun t => t.avg) =
      some (if 0 < (stats.map (fun s => s.ab)).sum
        then fmtDivFixed (stats.map (fun s => s.h)).sum (stats.map (fun s => s.ab)).sum 3
        else ".000") ∧
    (aggregate_batting stats).map (fun t => t.slg) =
      some (if 0 < (stats.map (fun s => s.ab)).sum
        then fmtDivFixed
          (battingTotalBases (stats.map (fun s => s.h)).sum
            (stats.map (fun s => s.doubles)).sum (stats.map (fun s => s.triples)).sum
            (stats.map (fun s => s.hr)).sum)
          (stats.map (fun s => s.ab)).sum 3
        else ".000") ∧
    (aggregate_batting stats).map (fun t => t.obp) =
      some (if 0 < (stats.map (fun s => s.ab)).sum + (stats.map (fun s => s.bb)).sum +
            (stats.map (fun s => s.hbp)).sum + (stats.map (fun s => s.sf)).sum
        then fmtDivFixed
          ((stats.map (fun s => s.h)).sum + (stats.map (fun s => s.bb)).sum +
            (stats.map (fun s => s.hbp)).sum)
          ((stats.map (fun s => s.ab)).sum + (stats.map (fun s => s.bb)).sum +
            (stats.map (fun s => s.hbp)).sum + (stats.map (fun s => s.sf)).sum) 3
        else ".000") := by
  simp only [aggregate_batting, h, Bool.false_eq_true, if_false, Option.map_some']
  exact ⟨trivial, trivial, trivial⟩

/-! ### Thirds arithmetic -/

theorem decval_thirds_digit (w d : Nat) (hd : d < 10) :
    DecVal.thirds ⟨(w : Int) * 10 + d, 1⟩ = 3 * w + d := by
  have h1 : ((w : Int) * 10 + d).tdiv ((10 : Int) ^ (1 : Nat)) = w := by
    rw [pow_one, Int.tdiv_eq_ediv (by positivity) (by norm_num)]
    omega
  simp only [DecVal.thirds, DecVal.trunc, DecVal.fracDigit, roundHalfEvenDiv, h1]
  rw [pow_one]
  have h2 : ((w : Int) * 10 + d - w * 10) * 10 = d * 10 := by ring
  rw [h2]
  rw [Int.fdiv_eq_ediv _ (by norm_num), Int.fmod_eq_emod _ (by norm_num)]
  have h3 : ((d : Int) * 10) / 10 = d := by omega
  have h4 : ((d : Int) * 10) % 10 = 0 := by omega
  rw [h3, h4]
  norm_num
  ring

theorem decval_thirds_whole (w : Nat) : DecVal.thirds ⟨(w : Int), 0⟩ = 3 * w := by
  simp only [DecVal.thirds, DecVal.trunc, DecVal.fracDigit, roundHalfEvenDiv, pow_zero,
    Int.tdiv_one]
  have h2 : ((w : Int) - w * 1) * 10 = 0 := by ring
  rw [h2]
  rw [Int.fdiv_eq_ediv _ (by norm_num), Int.fmod_eq_emod _ (by norm_num)]
  norm_num
  ring

/-! ### C2 and its fixtures -/

def wPitch1 : PitchingStats :=
  ⟨0, 1, 1, 1, 1, 1, ⟨41, 1⟩, 0, 0, 0, 3, 0, 0, 0, 0, 0, 0, 0, 0, 0, 0, 0, 0, 0, 0, 0, 0, 0,
    true, false, false⟩

def wPitch2 : PitchingStats :=
  ⟨0, 2, 1, 1, 1, 1, ⟨32, 1⟩, 0, 0, 0, 1, 0, 0, 0, 0, 0, 0, 0, 0, 0, 0, 0, 0, 0, 0, 0, 0, 0,
    false, false, false⟩

/-- C2: innings pitched are aggregated in thirds-of-an-inning units — a
stored mixed-radix value with whole part w and trailing digit d
contributes 3w + d thirds (and a whole value w contributes 3w); for two
lines with innings-pitched 4.1 and 3.2 and total earned runs 4, the total
is 24 thirds, the displayed aggregate innings is "8" (trailing digit
omitted when zero), and the aggregate ERA is (4·7·3)/24 formatted as
"3.50". -/
theorem claim_C2_pitching_thirds_arithmetic :
    (∀ (w d : Nat), d < 10 → DecVal.thirds ⟨(w : Int) * 10 + d, 1⟩ = 3 * w + d) ∧
    (∀ w : Nat, DecVal.thirds ⟨(w : Int), 0⟩ = 3 * w) ∧
    (∀ stats : List PitchingStats,
      totalThirds stats = (stats.map (fun s => s.ip.thirds)).sum) ∧
    (pyFloat (some "4.1") = ⟨41, 1⟩ ∧ pyFloat (some "3.2") = ⟨32, 1⟩ ∧
      DecVal.thirds ⟨41, 1⟩ = 13 ∧ DecVal.thirds ⟨32, 1⟩ = 11) ∧
    (∀ s1 s2 : PitchingStats, s1.ip = ⟨41, 1⟩ → s2.ip = ⟨32, 1⟩ → s1.er + s2.er = 4 →
      totalThirds [s1, s2] = 24 ∧
      (aggregate_pitching [s1, s2]).map (fun t => t.ip) = some "8" ∧
      (aggregate_pitching [s1, s2]).map (fun t => t.era) = some "3.50") := by
  refine ⟨decval_thirds_digit, decval_thirds_whole, fun stats => rfl, by decide, ?_⟩
  intro s1 s2 h1 h2 her
  have e1 : DecVal.thirds ⟨41, 1⟩ = 13 := by decide
  have e2 : DecVal.thirds ⟨32, 1⟩ = 11 := by decide
  have htt : totalThirds [s1, s2] = 24 := by
    simp [totalThirds, h1, h2, e1, e2]
  have hers : ([s1, s2].map (fun s => s.er)).sum = 4 := by
    simpa using her
  obtain ⟨f1, f2, _⟩ := aggregate_pitching_fields [s1, s2] rfl
  refine ⟨htt, ?_, ?_⟩
  · rw [f1, htt]
    decide
  · rw [f2, htt, hers]
    decide

theorem claim_C2_witness :
    DecVal.thirds ⟨(4 : Int) * 10 + (1 : Nat), 1⟩ = 3 * 4 + (1 : Nat) ∧
    totalThirds [wPitch1, wPitch2] = 24 ∧
    (aggregate_pitching [wPitch1, wPitch2]).map (fun t => t.ip) = some "8" ∧
    (aggregate_pitching [wPitch1, wPitch2]).map (fun t => t.era) = some "3.50" := by
  obtain ⟨h3, h4, h5⟩ :=
    claim_C2_pitching_thirds_arithmetic.2.2.2.2 wPitch1 wPitch2 rfl rfl (by decide)
  exact ⟨claim_C2_pitching_thirds_arithmetic.1 4 1 (by decide), h3, h4, h5⟩

/-! ### C3: ERA at zero recorded outs -/

def cPitch : PitchingStats :=
  ⟨0, 1, 1, 1, 1, 0, ⟨0, 0⟩, 0, 0, 0, 1, 0, 0, 0, 0, 0, 0, 0, 0, 0, 0, 0, 0, 0, 0, 0, 0, 0,
    false, false, false⟩

/-- C3 counterexample: a collection with zero total thirds and positive
total earned runs.  The collection-level ERA of `_aggregate_pitching` is
the numeric string "0.00", not an undefined sentinel, contradicting the
claim that a positive-earned-run zero-innings collection reports an
explicit "undefined" value. -/
theorem claim_C3_counterexample :
    totalThirds [cPitch] = 0 ∧
    (aggregate_pitching [cPitch]).map (fun t => t.er) = some 1 ∧
    (aggregate_pitching [cPitch]).map (fun t => t.era) = some "0.00" :=
  ⟨rfl, rfl, rfl⟩

/-- C3 (amended): when the total innings in thirds of a nonempty
collection is zero, the collection-level ERA of `_aggregate_pitching`
reports "0.00" regardless of earned runs; the explicit undefined sentinel
(`float("inf")`) exists only in the single-line `PitchingStats.era`
method, which reports 0 when the line's earned runs are zero and the
infinite sentinel when they are positive. -/
theorem claim_C3_zero_innings_era :
    (∀ stats : List PitchingStats, stats.isEmpty = false → totalThirds stats = 0 →
      (aggregate_pitching stats).map (fun t => t.era) = some "0.00") ∧
    (∀ s : PitchingStats, s.ip.thirds = 0 →
      s.era = if 0 < s.er then EraVal.infinite else EraVal.val 0 1) := by
  constructor
  · intro stats h htt
    have hf := (aggregate_pitching_fields stats h).2.1
    rw [hf, htt]
    norm_num
  · intro s h
    simp only [PitchingStats.era, h]
    simp

theorem claim_C3_witness :
    (aggregate_pitching [cPitch]).map (fun t => t.era) = some "0.00" ∧
    cPitch.era = EraVal.infinite := by
  constructor
  · exact claim_C3_zero_innings_era.1 [cPitch] rfl rfl
  · have h := claim_C3_zero_innings_era.2 cPitch rfl
    rw [h, if_pos (show (0 : Int) < cPitch.er by decide)]

/-! ### C4: presence booleans for win/loss/save -/

theorem playerLookupOrCreate_pitching (px : AttrMap) (tid : Nat) (db : DB) :
    (playerLookupOrCreate px tid db).1.pitching = db.pitching := by
  simp only [playerLookupOrCreate]
  split
  · split
    · rfl
    · rfl
  · rfl

def wPx : PlayerXml :=
  ⟨[("name", "P. Jones"), ("uni", "9"), ("gp", "1")], none, none,
    some [("ip", "4.1"), ("win", "N")]⟩

/-- C4: the stored win/loss/save booleans of a pitching line are the
Python truthiness of the corresponding attribute string defaulted to ""
— true exactly when the attribute is present with a non-empty value,
whatever that value is (an explicit "N" still yields true) — and the
aggregate win/loss/save totals count the lines whose respective boolean
is true. -/
theorem claim_C4_win_loss_save_presence :
    (∀ v : Option String, pyTruthy v = true ↔ ∃ s, v = some s ∧ s ≠ "") ∧
    (pyTruthy (some "N") = true) ∧
    (∀ (rowId gameId playerId teamId : Nat) (pm : AttrMap),
      (mkPitchingStats rowId gameId playerId teamId pm).win = pyTruthy (attrGet pm "win") ∧
      (mkPitchingStats rowId gameId playerId teamId pm).loss = pyTruthy (attrGet pm "loss") ∧
      (mkPitchingStats rowId gameId playerId teamId pm).save = pyTruthy (attrGet pm "save")) ∧
    (∀ (gid tid : Nat) (db : DB) (px : PlayerXml) (pm : AttrMap),
      px.pitching = some pm → pyInt (attrGet px.attrs "gp") 0 ≠ 0 →
      ∃ row, (processPlayer gid tid db px).pitching = db.pitching ++ [row] ∧
        row.win = pyTruthy (attrGet pm "win") ∧ row.loss = pyTruthy (attrGet pm "loss") ∧
        row.save = pyTruthy (attrGet pm "save")) ∧
    (∀ stats : List PitchingStats, stats.isEmpty = false →
      (aggregate_pitching stats).map (fun t => t.w) =
        some ((stats.filter (fun s => s.win)).length) ∧
      (aggregate_pitching stats).map (fun t => t.l) =
        some ((stats.filter (fun s => s.loss)).length) ∧
      (aggregate_pitching stats).map (fun t => t.sv) =
        some ((stats.filter (fun s => s.save)).length)) := by
  refine ⟨?_, by decide, fun rowId gameId playerId teamId pm => ⟨rfl, rfl, rfl⟩, ?_, ?_⟩
  · intro v
    cases v with
    | none => simp [pyTruthy]
    | some s =>
      constructor
      · intro ht
        refine ⟨s, rfl, ?_⟩
        intro hs
        rw [pyTruthy, hs] at ht
        simp at ht
      · rintro ⟨s2, hs2, hne⟩
        cases hs2
        rw [pyTruthy]
        simpa using hne
  · intro gid tid db px pm hpm hgp
    simp only [processPlayer, hpm]
    rw [if_neg hgp]
    cases hh : px.hitting <;> cases hf2 : px.fielding <;>
      exact ⟨_, by rw [playerLookupOrCreate_pitching], rfl, rfl, rfl⟩
  · intro stats h
    obtain ⟨_, _, h3, h4, h5, _⟩ := aggregate_pitching_fields stats h
    exact ⟨h3, h4, h5⟩

theorem claim_C4_witness :
    (∃ row, (processPlayer 3 1 wDB0 wPx).pitching = wDB0.pitching ++ [row] ∧
      row.win = true) ∧
    (aggregate_pitching [wPitch1, wPitch2]).map (fun t => t.w) = some 1 := by
  constructor
  · obtain ⟨row, h1, h2, _, _⟩ :=
      claim_C4_win_loss_save_presence.2.2.2.1 3 1 wDB0 wPx [("ip", "4.1"), ("win", "N")] rfl
        (by decide)
    refine ⟨row, h1, ?_⟩
    rw [h2]
    decide
  · have h := (claim_C4_win_loss_save_presence.2.2.2.2 [wPitch1, wPitch2] rfl).1
    rw [h]
    rfl

/-! ### C8: batting formulas -/

def wBat : BattingStats :=
  ⟨0, 1, 1, 1, 1, "", true, false, 3, 0, 3, 0, 1, 0, 0, 0, 0, 0, 0, 0, 0, 0, 0, 0, 0, 0, 0⟩

/-- C8: singles and total bases follow the reference formulas
singles = H − 2B − 3B − HR and total_bases = singles + 2·2B + 3·3B + 4·HR;
in the literal case AB=3, H=3, 2B=1, 3B=0, HR=0 the aggregate yields
singles 2, total bases 4, AVG "1.000" and SLG "1.333" (three decimal
places), and every rate statistic displays ".000" when its denominator
is zero. -/
theorem claim_C8_batting_formulas :
    (∀ h2 doubles triples hr : Int,
      battingSingles h2 doubles triples hr = h2 - doubles - triples - hr ∧
      battingTotalBases h2 doubles triples hr =
        battingSingles h2 doubles triples hr + 2 * doubles + 3 * triples + 4 * hr) ∧
    (∀ s : BattingStats, s.ab = 3 → s.h = 3 → s.doubles = 1 → s.triples = 0 → s.hr = 0 →
      battingSingles s.h s.doubles s.triples s.hr = 2 ∧
      battingTotalBases s.h s.doubles s.triples s.hr = 4 ∧
      (aggregate_batting [s]).map (fun t => t.avg) = some "1.000" ∧
      (aggregate_batting [s]).map (fun t => t.slg) = some "1.333") ∧
    (∀ stats : List BattingStats, stats.isEmpty = false →
      ((stats.map (fun s => s.ab)).sum = 0 →
        (aggregate_batting stats).map (fun t => t.avg) = some ".000" ∧
        (aggregate_batting stats).map (fun t => t.slg) = some ".000") ∧
      ((stats.map (fun s => s.ab)).sum + (stats.map (fun s => s.bb)).sum +
          (stats.map (fun s => s.hbp)).sum + (stats.map (fun s => s.sf)).sum = 0 →
        (aggregate_batting stats).map (fun t => t.obp) = some ".000")) := by
  refine ⟨fun h2 doubles triples hr => ⟨rfl, rfl⟩, ?_, ?_⟩
  · intro s hab hh hd ht3 hhr
    have hsab : ([s].map (fun q => q.ab)).sum = 3 := by simp [hab]
    have hsh : ([s].map (fun q => q.h)).sum = 3 := by simp [hh]
    have hsd : ([s].map (fun q => q.doubles)).sum = 1 := by simp [hd]
    have hst : ([s].map (fun q => q.triples)).sum = 0 := by simp [ht3]
    have hshr : ([s].map (fun q => q.hr)).sum = 0 := by simp [hhr]
    obtain ⟨f1, f2, _⟩ := aggregate_batting_fields [s] rfl
    refine ⟨?_, ?_, ?_, ?_⟩
    · rw [hh, hd, ht3, hhr]; decide
    · rw [hh, hd, ht3, hhr]; decide
    · rw [f1, hsab, hsh]; decide
    · rw [f2, hsab, hsh, hsd, hst, hshr]; decide
  · intro stats h
    obtain ⟨f1, f2, f3⟩ := aggregate_batting_fields stats h
    constructor
    · intro hz
      constructor
      · rw [f1, hz]; norm_num
      · rw [f2, hz]; norm_num
    · intro hz
      rw [f3, hz]; norm_num

theorem claim_C8_witness :
    battingSingles wBat.h wBat.doubles wBat.triples wBat.hr = 2 ∧
    battingTotalBases wBat.h wBat.doubles wBat.triples wBat.hr = 4 ∧
    (aggregate_batting [wBat]).map (fun t => t.avg) = some "1.000" ∧
    (aggregate_batting [wBat]).map (fun t => t.slg) = some "1.333" := by
  obtain ⟨h1, h2, h3, h4⟩ := claim_C8_batting_formulas.2.1 wBat rfl rfl rfl rfl rfl
  exact ⟨h1, h2, h3, h4⟩

end Baseball
